import Mathlib

/-!
# Verification of the omnidirectional drive controller (`_OmniDrive.cpp`)

A shallow embedding of `src/cpp/robotino/_OmniDrive.cpp`.

* `float` values are modelled by rationals (`ℚ`), so every value is finite.
  The arithmetic comes in two forms.  The functions named as in the source
  compute exactly; they carry the properties of the control law that do not
  depend on rounding.  `softAccellerate32`, `apply32` and `applyTimes32` are the
  limiter and the tick with every `float` operation of `softAccellerate`
  rounded by `round32` (IEEE 754 binary32, round to nearest, ties to even);
  they carry the properties about step sizes and tick counts.
* The `OMNIDRIVE_*` macros come from a header that is not part of the sources at
  hand; they are the fields of `Config` and every function takes the
  configuration as a parameter.
* The geometry classes (`Angle`, `Coordinate`, `AngularCoordinate`, `Vector`)
  and the odometry are external collaborators.  The pose read from the
  odometry is an explicit argument, the geometric operations are the fields of
  `Geometry`.
* `rec::robotino::api2::OmniDrive::setVelocity` is the actuator; a method
  returns the new state together with the command it sent, if any.
-/

/-- The build-time constants of `_OmniDrive.h`, one field per macro used by
`_OmniDrive.cpp`. -/
structure Config where
  OMNIDRIVE_MIN_ACCEPTABLE_DISTANCE : ℚ
  OMNIDRIVE_TRAVEL_MIN_DISTANCE : ℚ
  OMNIDRIVE_POINTING_DESTINATION_MAX_DISTANCE : ℚ
  OMNIDRIVE_POINTING_TARGET_MIN_DISTANCE : ℚ
  OMNIDRIVE_ROTATE_ACCEPTABLE_DELTA_ANGLE : ℚ
  OMNIDRIVE_MANOUVER_MAX_SPEED : ℚ
  OMNIDRIVE_MANOUVER_MIN_SPEED : ℚ
  OMNIDRIVE_TRAVEL_MAX_ANGLE : ℚ
  OMNIDRIVE_TRAVEL_MAX_SPEED : ℚ
  OMNIDRIVE_TRAVEL_MIN_SPEED : ℚ
  OMNIDRIVE_ROTATE_MAX_SPEED : ℚ
  OMNIDRIVE_ROTATE_MIN_SPEED : ℚ
  OMNIDRIVE_ROTATE_MAX_ADJUST : ℚ
  OMNIDRIVE_VELOCITY_MAX_ADJUST : ℚ

/-- A position in the plane (`geometry/Coordinate.h`). -/
structure Coordinate where
  x : ℚ
  y : ℚ
deriving DecidableEq

/-- An angle (`geometry/Angle.h`), observed through `phi()`. -/
structure Angle where
  phi : ℚ
deriving DecidableEq

/-- A pose: position and heading (`geometry/AngularCoordinate.h`). -/
structure AngularCoordinate where
  x : ℚ
  y : ℚ
  phi : ℚ
deriving DecidableEq

/-- A vector in polar form (`geometry/Vector.h`), observed through
`magnitude()` and changed through `setPhi`. -/
structure Vector where
  magnitude : ℚ
  phi : ℚ
deriving DecidableEq

/-- The cast `(Coordinate) position`. -/
def AngularCoordinate.toCoordinate (p : AngularCoordinate) : Coordinate :=
  { x := p.x, y := p.y }

/-- The cast `(Angle) position`. -/
def AngularCoordinate.toAngle (p : AngularCoordinate) : Angle :=
  { phi := p.phi }

/-- The method `Vector::setPhi`. -/
def Vector.setPhi (v : Vector) (phi : ℚ) : Vector :=
  { v with phi := phi }

/-- The geometric operations `_OmniDrive.cpp` calls on the geometry classes,
which are external to the controller:
`getVector` is `AngularCoordinate::getVector( Coordinate )`,
`deltaAngle` is `deltaAngle( Vector )` called on a pose,
`headingDeltaAngle` is `deltaAngle( Vector )` called on an `Angle`,
`reverse` is `Angle::reverse` and `cartesian` is `Vector::cartesian`. -/
structure Geometry where
  getVector : AngularCoordinate → Coordinate → Vector
  deltaAngle : AngularCoordinate → Vector → Angle
  headingDeltaAngle : Angle → Vector → Angle
  reverse : Angle → Angle
  cartesian : Vector → Coordinate

/-- A command sent to the actuator: `(xSpeed, ySpeed, omega)`. -/
abbrev Command := ℚ × ℚ × ℚ

/-- The member variables of class `_OmniDrive`. -/
structure _OmniDrive where
  xSpeed : ℚ
  ySpeed : ℚ
  omega : ℚ
  xOld : ℚ
  yOld : ℚ
  omegaOld : ℚ
  travelReversed : Bool
  onlyManouver : Bool
  autoDrive : Bool
  stop : Bool
  _destination : Coordinate
  _pointAt : Coordinate
  _doPointAt : Bool
  _stopWithin : ℚ
deriving DecidableEq

namespace _OmniDrive

/-- The constructor; `position` is the pose the odometry reports. -/
def init (position : AngularCoordinate) : _OmniDrive :=
  { xSpeed := 0, ySpeed := 0, omega := 0
    xOld := 0, yOld := 0, omegaOld := 0
    travelReversed := false, onlyManouver := false
    autoDrive := true, stop := false
    _destination := position.toCoordinate
    _pointAt := { x := 0, y := 0 }
    _doPointAt := false
    _stopWithin := 0 }

/-- The getter `destination()`. -/
def destination (position : AngularCoordinate) (s : _OmniDrive) : Coordinate :=
  if !s.autoDrive then position.toCoordinate else s._destination

/-- The method `setDestination`. -/
def setDestination (s : _OmniDrive) (destination : Coordinate) : _OmniDrive :=
  { s with autoDrive := true, _destination := destination }

/-- The getter `pointAt()`. -/
def pointAt (s : _OmniDrive) : Coordinate := s._pointAt

/-- The method `setPointAt`. -/
def setPointAt (position : AngularCoordinate) (s : _OmniDrive) (target : Coordinate) :
    _OmniDrive :=
  let s1 :=
    if !s.autoDrive then
      { setDestination s position.toCoordinate with autoDrive := true }
    else s
  { s1 with _pointAt := target, _doPointAt := true }

/-- The getter `pointingActive()`. -/
def pointingActive (s : _OmniDrive) : Bool := s._doPointAt

/-- The method `stopPointing`. -/
def stopPointing (s : _OmniDrive) : _OmniDrive :=
  { s with _doPointAt := false }

/-- The getter `stopWithin()`. -/
def stopWithin (s : _OmniDrive) : ℚ := s._stopWithin

/-- The method `setStopWithin`. -/
def setStopWithin (cfg : Config) (s : _OmniDrive) (distance : ℚ) : _OmniDrive :=
  if distance < cfg.OMNIDRIVE_MIN_ACCEPTABLE_DISTANCE then
    { s with _stopWithin := cfg.OMNIDRIVE_MIN_ACCEPTABLE_DISTANCE }
  else
    { s with _stopWithin := distance }

/-- The method `analyze`, which does nothing. -/
def analyze (s : _OmniDrive) : _OmniDrive := s

/-- The private function `findManouverVelocity`. -/
def findManouverVelocity (cfg : Config) (length : ℚ) : ℚ :=
  let speed := length * (13 / 10)
  if speed > cfg.OMNIDRIVE_MANOUVER_MAX_SPEED then cfg.OMNIDRIVE_MANOUVER_MAX_SPEED
  else if speed > 0 ∧ speed < cfg.OMNIDRIVE_MANOUVER_MIN_SPEED then
    cfg.OMNIDRIVE_MANOUVER_MIN_SPEED
  else speed

/-- The private function `findTravelVelocity`. -/
def findTravelVelocity (cfg : Config) (length deltaAngle : ℚ) : ℚ :=
  if |deltaAngle| > cfg.OMNIDRIVE_TRAVEL_MAX_ANGLE then 0
  else
    let speed := length * (13 / 10) *
      ((cfg.OMNIDRIVE_TRAVEL_MAX_ANGLE - |deltaAngle|) / cfg.OMNIDRIVE_TRAVEL_MAX_ANGLE)
    if speed > cfg.OMNIDRIVE_TRAVEL_MAX_SPEED then cfg.OMNIDRIVE_TRAVEL_MAX_SPEED
    else if speed > 0 ∧ speed < cfg.OMNIDRIVE_TRAVEL_MIN_SPEED then
      cfg.OMNIDRIVE_TRAVEL_MIN_SPEED
    else speed

/-- The private function `findAngularVelocity`. -/
def findAngularVelocity (cfg : Config) (deltaAngle : ℚ) : ℚ :=
  let deltaAngle := deltaAngle * (3 / 2)
  let abs := |deltaAngle|
  if abs > cfg.OMNIDRIVE_ROTATE_MAX_SPEED then
    (if deltaAngle > 0 then cfg.OMNIDRIVE_ROTATE_MAX_SPEED
     else -cfg.OMNIDRIVE_ROTATE_MAX_SPEED)
  else if abs < cfg.OMNIDRIVE_ROTATE_MIN_SPEED / 4 then 0
  else if abs < cfg.OMNIDRIVE_ROTATE_MIN_SPEED then
    (if deltaAngle > 0 then cfg.OMNIDRIVE_ROTATE_MIN_SPEED
     else -cfg.OMNIDRIVE_ROTATE_MIN_SPEED)
  else deltaAngle

/-- The private function `softAccellerate`; `isRotation` selects the rotation
max step, as the defaulted third argument of the source does. -/
def softAccellerate (cfg : Config) (newSpeed currentSpeed : ℚ) (isRotation : Bool) : ℚ :=
  let deltaSpeed := newSpeed - currentSpeed
  let maxSpeedAdjust :=
    if isRotation then cfg.OMNIDRIVE_ROTATE_MAX_ADJUST else cfg.OMNIDRIVE_VELOCITY_MAX_ADJUST
  if |deltaSpeed| > maxSpeedAdjust then
    (if deltaSpeed > 0 then currentSpeed + maxSpeedAdjust else currentSpeed - maxSpeedAdjust)
  else newSpeed

/-- The private function `travelTowards`; `position` is the pose the odometry
reports. -/
def travelTowards (cfg : Config) (geo : Geometry) (position : AngularCoordinate)
    (destinationVector : Vector) (s : _OmniDrive) : _OmniDrive :=
  if destinationVector.magnitude < s._stopWithin then s
  else
    let deltaAngle := geo.deltaAngle position destinationVector
    let deltaAngle := if s.travelReversed then geo.reverse deltaAngle else deltaAngle
    { s with
      xSpeed := findTravelVelocity cfg destinationVector.magnitude deltaAngle.phi
      omega := findAngularVelocity cfg deltaAngle.phi }

/-- The private function `manouverTowards`. -/
def manouverTowards (cfg : Config) (geo : Geometry) (heading : Angle)
    (destinationVector : Vector) (s : _OmniDrive) : _OmniDrive :=
  if destinationVector.magnitude < s._stopWithin then s
  else
    let destinationVector :=
      destinationVector.setPhi (geo.headingDeltaAngle heading destinationVector).phi
    let cartesian := geo.cartesian destinationVector
    { s with
      xSpeed := findManouverVelocity cfg cartesian.x
      ySpeed := findManouverVelocity cfg cartesian.y }

/-- The private function `turnTowards`. -/
def turnTowards (cfg : Config) (geo : Geometry) (position : AngularCoordinate)
    (target : Coordinate) (s : _OmniDrive) : _OmniDrive :=
  let targetVector := geo.getVector position target
  if targetVector.magnitude < cfg.OMNIDRIVE_POINTING_TARGET_MIN_DISTANCE + s._stopWithin then s
  else
    let deltaAngle := geo.deltaAngle position targetVector
    if |deltaAngle.phi| > cfg.OMNIDRIVE_ROTATE_ACCEPTABLE_DELTA_ANGLE then
      { s with omega := findAngularVelocity cfg deltaAngle.phi }
    else
      { s with _doPointAt := false }

/-- The strategy block of `apply`, run when the stop flag is clear: the
translation strategy followed by the turn step. -/
def drive (cfg : Config) (geo : Geometry) (position : AngularCoordinate)
    (s : _OmniDrive) : _OmniDrive :=
  let destination := s.destination position
  let destinationVector := geo.getVector position destination
  let s1 :=
    if s.onlyManouver = true ∨
        destinationVector.magnitude < cfg.OMNIDRIVE_TRAVEL_MIN_DISTANCE then
      manouverTowards cfg geo position.toAngle destinationVector s
    else
      travelTowards cfg geo position destinationVector s
  if s1.pointingActive = true ∧ destinationVector.magnitude <
      cfg.OMNIDRIVE_POINTING_DESTINATION_MAX_DISTANCE - s1._stopWithin then
    turnTowards cfg geo position s1._pointAt s1
  else s1

/-- The method `apply`: one control tick.  `position` is the pose the odometry
reports during the tick; the second component is the command sent to the
actuator, if any. -/
def apply (cfg : Config) (geo : Geometry) (position : AngularCoordinate)
    (s : _OmniDrive) : _OmniDrive × Option Command :=
  if !s.autoDrive then (s, none)
  else
    let s1 := { s with xOld := s.xSpeed, yOld := s.ySpeed, omegaOld := s.omega }
    let s2 := { s1 with xSpeed := 0, ySpeed := 0, omega := 0 }
    let s3 := if !s2.stop then drive cfg geo position s2 else s2
    let s4 := { s3 with xSpeed := softAccellerate cfg s3.xSpeed s3.xOld false }
    let s5 := { s4 with ySpeed := softAccellerate cfg s4.ySpeed s4.yOld false }
    let s6 := { s5 with omega := softAccellerate cfg s5.omega s5.omegaOld true }
    (s6, some (s6.xSpeed, s6.ySpeed, s6.omega))

/-- The method `niceStop`. -/
def niceStop (s : _OmniDrive) : _OmniDrive :=
  { s with stop := true }

/-- The method `fullStop`; it sends the zero command to the actuator. -/
def fullStop (s : _OmniDrive) : _OmniDrive × Option Command :=
  ({ s with
      xSpeed := 0, ySpeed := 0, omega := 0
      xOld := 0, yOld := 0, omegaOld := 0
      stop := true },
    some (0, 0, 0))

/-- The getter `stopIsSet()`. -/
def stopIsSet (s : _OmniDrive) : Bool := s.stop

/-- The method `go`. -/
def go (s : _OmniDrive) : _OmniDrive :=
  { s with stop := false }

/-- The method `setVelocity`: the manual command. -/
def setVelocity (s : _OmniDrive) (xSpeed ySpeed omega : ℚ) : _OmniDrive × Option Command :=
  if s.stop then (s, none)
  else
    let s1 := if s.autoDrive then { s with autoDrive := false } else s
    (s1, some (xSpeed, ySpeed, omega))

end _OmniDrive

/-- A call of one of the public methods that change the controller or reach
the actuator.  `apply` and `setPointAt` carry the pose the odometry reports
during the call. -/
inductive Call where
  | setDestination (destination : Coordinate)
  | setPointAt (position : AngularCoordinate) (target : Coordinate)
  | stopPointing
  | setStopWithin (distance : ℚ)
  | analyze
  | apply (position : AngularCoordinate)
  | niceStop
  | fullStop
  | go
  | setVelocity (xSpeed ySpeed omega : ℚ)
deriving DecidableEq

/-- One call on the controller: the new state and the command sent, if any. -/
def step (cfg : Config) (geo : Geometry) (s : _OmniDrive) : Call → _OmniDrive × Option Command
  | .setDestination d => (s.setDestination d, none)
  | .setPointAt position target => (s.setPointAt position target, none)
  | .stopPointing => (s.stopPointing, none)
  | .setStopWithin distance => (s.setStopWithin cfg distance, none)
  | .analyze => (s.analyze, none)
  | .apply position => s.apply cfg geo position
  | .niceStop => (s.niceStop, none)
  | .fullStop => s.fullStop
  | .go => (s.go, none)
  | .setVelocity x y w => s.setVelocity x y w

/-- A sequence of calls, in order: the final state and the commands sent. -/
def run (cfg : Config) (geo : Geometry) (s : _OmniDrive) : List Call → _OmniDrive × List Command
  | [] => (s, [])
  | c :: cs =>
    let r := step cfg geo s c
    let rest := run cfg geo r.1 cs
    (rest.1, r.2.toList ++ rest.2)

/-- A configuration with which the theorems are instantiated at concrete
inputs. -/
def sampleConfig : Config :=
  { OMNIDRIVE_MIN_ACCEPTABLE_DISTANCE := 1 / 100
    OMNIDRIVE_TRAVEL_MIN_DISTANCE := 3 / 10
    OMNIDRIVE_POINTING_DESTINATION_MAX_DISTANCE := 1 / 2
    OMNIDRIVE_POINTING_TARGET_MIN_DISTANCE := 1 / 10
    OMNIDRIVE_ROTATE_ACCEPTABLE_DELTA_ANGLE := 1 / 20
    OMNIDRIVE_MANOUVER_MAX_SPEED := 1 / 5
    OMNIDRIVE_MANOUVER_MIN_SPEED := 1 / 50
    OMNIDRIVE_TRAVEL_MAX_ANGLE := 1 / 2
    OMNIDRIVE_TRAVEL_MAX_SPEED := 1 / 2
    OMNIDRIVE_TRAVEL_MIN_SPEED := 1 / 20
    OMNIDRIVE_ROTATE_MAX_SPEED := 1
    OMNIDRIVE_ROTATE_MIN_SPEED := 1 / 10
    OMNIDRIVE_ROTATE_MAX_ADJUST := 1 / 10
    OMNIDRIVE_VELOCITY_MAX_ADJUST := 1 / 50 }

/-- A computable geometry with which the theorems are instantiated at concrete
inputs: taxicab magnitudes and zero angles.  No theorem depends on it, they
hold for every geometry. -/
def sampleGeometry : Geometry :=
  { getVector := fun p c => { magnitude := |c.x - p.x| + |c.y - p.y|, phi := 0 }
    deltaAngle := fun _ _ => { phi := 0 }
    headingDeltaAngle := fun _ _ => { phi := 0 }
    reverse := fun a => { phi := -a.phi }
    cartesian := fun v => { x := v.magnitude, y := 0 } }

/-- The pose at the origin, heading along the x axis. -/
def origin : AngularCoordinate := { x := 0, y := 0, phi := 0 }

/-- A controller in Auto mode driving at `(1/10, -1/20, 1/5)`. -/
def sampleMoving : _OmniDrive :=
  { _OmniDrive.init origin with xSpeed := 1 / 10, ySpeed := -1 / 20, omega := 1 / 5 }

/-- The stop flag is set and the velocity triple is zero. -/
def Halted (s : _OmniDrive) : Prop :=
  s.stop = true ∧ s.xSpeed = 0 ∧ s.ySpeed = 0 ∧ s.omega = 0

/-- The max step `softAccellerate` uses. -/
def maxStep (cfg : Config) (isRotation : Bool) : ℚ :=
  if isRotation then cfg.OMNIDRIVE_ROTATE_MAX_ADJUST else cfg.OMNIDRIVE_VELOCITY_MAX_ADJUST

/-- One tick of the limiter towards zero: what `apply()` makes of an axis whose
target is zero. -/
def ramp (cfg : Config) (isRotation : Bool) (previous : ℚ) : ℚ :=
  _OmniDrive.softAccellerate cfg 0 previous isRotation

/-- A controller in Manual mode whose velocity fields still hold
`(1/10, -1/20, 1/5)`: the state after `setVelocity` during a drive. -/
def sampleManual : _OmniDrive :=
  (sampleMoving.setVelocity (1 / 10) (-1 / 20) (1 / 5)).1

/-- A sequence of calls without `go()`. -/
def sampleCalls : List Call :=
  [Call.apply origin, Call.setVelocity 1 1 1, Call.niceStop,
    Call.setDestination { x := 1, y := 0 }, Call.setPointAt origin { x := 0, y := 1 },
    Call.apply origin]

/-- The first statements of `apply()` in Auto mode: the velocity triple is
saved in the old triple and reset to zero. -/
def snapshot (s : _OmniDrive) : _OmniDrive :=
  { s with
    xOld := s.xSpeed, yOld := s.ySpeed, omegaOld := s.omega
    xSpeed := 0, ySpeed := 0, omega := 0 }

/-- The destination vector `apply()` computes. -/
def destinationVector (geo : Geometry) (position : AngularCoordinate) (s : _OmniDrive) :
    Vector :=
  geo.getVector position (s.destination position)

/-- The translation step of `apply()`: the choice between `manouverTowards`
and `travelTowards`. -/
def translation (cfg : Config) (geo : Geometry) (position : AngularCoordinate)
    (s : _OmniDrive) : _OmniDrive :=
  if s.onlyManouver = true ∨
      (destinationVector geo position s).magnitude < cfg.OMNIDRIVE_TRAVEL_MIN_DISTANCE then
    _OmniDrive.manouverTowards cfg geo position.toAngle (destinationVector geo position s) s
  else
    _OmniDrive.travelTowards cfg geo position (destinationVector geo position s) s

/-- The heading error `turnTowards` works with: the angle from the pose to the
vector towards the target. -/
def turnError (geo : Geometry) (position : AngularCoordinate) (target : Coordinate) : ℚ :=
  (geo.deltaAngle position (geo.getVector position target)).phi

/-- The last statements of `apply()`: the limiter on each axis. -/
def limiter (cfg : Config) (s : _OmniDrive) : _OmniDrive :=
  { s with
    xSpeed := _OmniDrive.softAccellerate cfg s.xSpeed s.xOld false
    ySpeed := _OmniDrive.softAccellerate cfg s.ySpeed s.yOld false
    omega := _OmniDrive.softAccellerate cfg s.omega s.omegaOld true }

/-- The state `apply()` hands to the limiter in Auto mode: its velocity triple
holds the target speeds of the tick. -/
def targets (cfg : Config) (geo : Geometry) (position : AngularCoordinate)
    (s : _OmniDrive) : _OmniDrive :=
  if s.stop then snapshot s else _OmniDrive.drive cfg geo position (snapshot s)

/-- The fields no strategy writes: everything but the velocity triple and the
point-at flag. -/
def SameFrame (s t : _OmniDrive) : Prop :=
  t.xOld = s.xOld ∧ t.yOld = s.yOld ∧ t.omegaOld = s.omegaOld ∧
    t.travelReversed = s.travelReversed ∧ t.onlyManouver = s.onlyManouver ∧
    t.autoDrive = s.autoDrive ∧ t.stop = s.stop ∧ t._destination = s._destination ∧
    t._pointAt = s._pointAt ∧ t._stopWithin = s._stopWithin

/-- A computable geometry with taxicab magnitudes in which every heading error
is `phi`. -/
def constGeometry (phi : ℚ) : Geometry :=
  { sampleGeometry with deltaAngle := fun _ _ => { phi := phi } }

/-- A controller in Auto mode, at rest, with destination 10 units ahead of
`origin`. -/
def sampleAhead : _OmniDrive :=
  (_OmniDrive.init origin).setDestination { x := 10, y := 0 }

/-- A controller in Auto mode, at rest at its destination, pointing at a
target one unit to the side. -/
def samplePointing : _OmniDrive :=
  (_OmniDrive.init origin).setPointAt origin { x := 0, y := 1 }

/-- A computable geometry in which the bearing of a point is its offset along
the y axis and magnitudes are taxicab distances: heading errors differ from
target to target. -/
def bearingGeometry : Geometry :=
  { getVector := fun p c => { magnitude := |c.x - p.x| + |c.y - p.y|, phi := c.y - p.y }
    deltaAngle := fun p v => { phi := v.phi - p.phi }
    headingDeltaAngle := fun a v => { phi := v.phi - a.phi }
    reverse := fun a => { phi := -a.phi }
    cartesian := fun v => { x := v.magnitude, y := 0 } }

/-- A controller in Auto mode, at rest at `origin`, with its destination at
taxicab distance `2/5` and bearing `1/10`, pointing at a target at distance 1
and bearing 1. -/
def sampleTurning : _OmniDrive :=
  ((_OmniDrive.init origin).setDestination { x := 3 / 10, y := 1 / 10 }).setPointAt origin
    { x := 0, y := 1 }

/-- A controller in Auto mode whose velocity triple holds the binary32 values
`(1/8, -1/4, 1/2)`. -/
def sampleSpinning : _OmniDrive :=
  { _OmniDrive.init origin with xSpeed := 1 / 8, ySpeed := -1 / 4, omega := 1 / 2 }

/-- The controller `sampleSpinning` after a manual command: Manual mode, same
velocity fields. -/
def sampleSpinningManual : _OmniDrive :=
  (sampleSpinning.setVelocity 0 0 0).1

/-- A controller in Auto mode turning at the rotation max speed of
`sampleConfig`, `omega = 1`. -/
def sampleFast : _OmniDrive :=
  { _OmniDrive.init origin with omega := 1 }

/-! ## Binary32 arithmetic

A finite `float` is a rational `n * 2 ^ (e - 23)` with `|n| < 2 ^ 24` and
`e ≥ -126`.  `round32` rounds a rational to the nearest such value, ties to
even.  The exponent is not bounded above: a result beyond the largest `float`
is kept where the machine gives an infinity. -/

/-- Round to the nearest integer, ties to the even one. -/
def roundHalfEven (q : ℚ) : ℤ :=
  if q - ⌊q⌋ < 1 / 2 then ⌊q⌋
  else if 1 / 2 < q - ⌊q⌋ then ⌊q⌋ + 1
  else if ⌊q⌋ % 2 = 0 then ⌊q⌋ else ⌊q⌋ + 1

/-- The binary exponent of the binade of `x > 0`, not below the smallest
normal exponent `-126` (below it the values are subnormal). -/
def binade (x : ℚ) : ℤ := max (Int.log 2 x) (-126)

/-- The spacing of the binary32 values in the binade of `x`. -/
def quantum (x : ℚ) : ℚ := 2 ^ (binade x - 23)

/-- Rounding of a magnitude `x ≥ 0` to binary32. -/
def roundMag (x : ℚ) : ℚ := roundHalfEven (x / quantum x) * quantum x

/-- Rounding to binary32: round to nearest, ties to even. -/
def round32 (x : ℚ) : ℚ := if x < 0 then -roundMag (-x) else roundMag x

/-- The rational `x` is a binary32 value. -/
def IsF32 (x : ℚ) : Prop := round32 x = x

/-- The `float maxSpeedAdjust` of `softAccellerate`: the macro converted to
`float`. -/
def maxStep32 (cfg : Config) (isRotation : Bool) : ℚ :=
  round32 (if isRotation then cfg.OMNIDRIVE_ROTATE_MAX_ADJUST
    else cfg.OMNIDRIVE_VELOCITY_MAX_ADJUST)

namespace _OmniDrive

/-- The private function `softAccellerate` in binary32: the difference, the
max step and the returned sum are each rounded to `float`. -/
def softAccellerate32 (cfg : Config) (newSpeed currentSpeed : ℚ) (isRotation : Bool) : ℚ :=
  let deltaSpeed := round32 (newSpeed - currentSpeed)
  let maxSpeedAdjust :=
    round32 (if isRotation then cfg.OMNIDRIVE_ROTATE_MAX_ADJUST
      else cfg.OMNIDRIVE_VELOCITY_MAX_ADJUST)
  if |deltaSpeed| > maxSpeedAdjust then
    (if deltaSpeed > 0 then round32 (currentSpeed + maxSpeedAdjust)
     else round32 (currentSpeed - maxSpeedAdjust))
  else newSpeed

/-- The method `apply` with the limiter in binary32. -/
def apply32 (cfg : Config) (geo : Geometry) (position : AngularCoordinate)
    (s : _OmniDrive) : _OmniDrive × Option Command :=
  if !s.autoDrive then (s, none)
  else
    let s1 := { s with xOld := s.xSpeed, yOld := s.ySpeed, omegaOld := s.omega }
    let s2 := { s1 with xSpeed := 0, ySpeed := 0, omega := 0 }
    let s3 := if !s2.stop then drive cfg geo position s2 else s2
    let s4 := { s3 with xSpeed := softAccellerate32 cfg s3.xSpeed s3.xOld false }
    let s5 := { s4 with ySpeed := softAccellerate32 cfg s4.ySpeed s4.yOld false }
    let s6 := { s5 with omega := softAccellerate32 cfg s5.omega s5.omegaOld true }
    (s6, some (s6.xSpeed, s6.ySpeed, s6.omega))

end _OmniDrive

/-- The last statements of `apply()` in binary32. -/
def limiter32 (cfg : Config) (s : _OmniDrive) : _OmniDrive :=
  { s with
    xSpeed := _OmniDrive.softAccellerate32 cfg s.xSpeed s.xOld false
    ySpeed := _OmniDrive.softAccellerate32 cfg s.ySpeed s.yOld false
    omega := _OmniDrive.softAccellerate32 cfg s.omega s.omegaOld true }

/-- The call `apply()` made `k` times in succession with the limiter in
binary32, the odometry reporting `position i` during the `i`-th call. -/
def applyTimes32 (cfg : Config) (geo : Geometry) (position : ℕ → AngularCoordinate) :
    ℕ → _OmniDrive → _OmniDrive
  | 0, s => s
  | k + 1, s =>
    applyTimes32 cfg geo (fun i => position (i + 1)) k (s.apply32 cfg geo (position 0)).1

/-- One tick of the binary32 limiter towards zero. -/
def ramp32 (cfg : Config) (isRotation : Bool) (previous : ℚ) : ℚ :=
  _OmniDrive.softAccellerate32 cfg 0 previous isRotation

/-- The least progress a tick of the binary32 ramp makes from magnitude
`|x|` or below while it is above the max step: the max step less the largest
rounding error of the subtraction. -/
def slack32 (cfg : Config) (isRotation : Bool) (x : ℚ) : ℚ :=
  maxStep32 cfg isRotation - |x| / 2 ^ 24 - 1 / 2 ^ 150

/-! ## The acceleration limiter -/

theorem softAccellerate_eq (cfg : Config) (n c : ℚ) (b : Bool) :
    _OmniDrive.softAccellerate cfg n c b =
      if |n - c| > maxStep cfg b then
        (if n - c > 0 then c + maxStep cfg b else c - maxStep cfg b)
      else n := rfl

theorem softAccellerate_zero_zero (cfg : Config) (b : Bool) (h : 0 ≤ maxStep cfg b) :
    _OmniDrive.softAccellerate cfg 0 0 b = 0 := by
  rw [softAccellerate_eq]
  simp [not_lt.mpr h]

/-! ## The stop flag -/

theorem apply_stopped (cfg : Config) (geo : Geometry) (position : AngularCoordinate)
    (s : _OmniDrive) (ha : s.autoDrive = true) (hs : s.stop = true) :
    s.apply cfg geo position =
      ({ s with
          xOld := s.xSpeed, yOld := s.ySpeed, omegaOld := s.omega
          xSpeed := _OmniDrive.softAccellerate cfg 0 s.xSpeed false
          ySpeed := _OmniDrive.softAccellerate cfg 0 s.ySpeed false
          omega := _OmniDrive.softAccellerate cfg 0 s.omega true },
        some (_OmniDrive.softAccellerate cfg 0 s.xSpeed false,
          _OmniDrive.softAccellerate cfg 0 s.ySpeed false,
          _OmniDrive.softAccellerate cfg 0 s.omega true)) := by
  simp [_OmniDrive.apply, ha, hs]

theorem apply_manual (cfg : Config) (geo : Geometry) (position : AngularCoordinate)
    (s : _OmniDrive) (ha : s.autoDrive = false) :
    s.apply cfg geo position = (s, none) := by
  simp [_OmniDrive.apply, ha]

theorem apply_halted (cfg : Config) (geo : Geometry) (position : AngularCoordinate)
    (hv : 0 ≤ cfg.OMNIDRIVE_VELOCITY_MAX_ADJUST) (hr : 0 ≤ cfg.OMNIDRIVE_ROTATE_MAX_ADJUST)
    (s : _OmniDrive) (h : Halted s) :
    Halted (s.apply cfg geo position).1 ∧
      ∀ c, (s.apply cfg geo position).2 = some c → c = (0, 0, 0) := by
  obtain ⟨hs, hx, hy, hw⟩ := h
  have zt : _OmniDrive.softAccellerate cfg 0 0 false = 0 :=
    softAccellerate_zero_zero cfg false (by simpa [maxStep] using hv)
  have zr : _OmniDrive.softAccellerate cfg 0 0 true = 0 :=
    softAccellerate_zero_zero cfg true (by simpa [maxStep] using hr)
  cases ha : s.autoDrive
  · rw [apply_manual cfg geo position s ha]
    exact ⟨⟨hs, hx, hy, hw⟩, by simp⟩
  · rw [apply_stopped cfg geo position s ha hs, hx, hy, hw, zt, zr]
    refine ⟨⟨hs, rfl, rfl, rfl⟩, ?_⟩
    intro c hc
    simpa using hc.symm

theorem step_halted (cfg : Config) (geo : Geometry)
    (hv : 0 ≤ cfg.OMNIDRIVE_VELOCITY_MAX_ADJUST) (hr : 0 ≤ cfg.OMNIDRIVE_ROTATE_MAX_ADJUST)
    (s : _OmniDrive) (h : Halted s) (c : Call) (hc : c ≠ Call.go) :
    Halted (step cfg geo s c).1 ∧ ∀ v, (step cfg geo s c).2 = some v → v = (0, 0, 0) := by
  cases c with
  | go => exact absurd rfl hc
  | apply position => exact apply_halted cfg geo position hv hr s h
  | setDestination d => exact ⟨h, by simp [step]⟩
  | setPointAt position target =>
    refine ⟨?_, by simp [step]⟩
    obtain ⟨hs, hx, hy, hw⟩ := h
    cases ha : s.autoDrive <;>
      simp [step, _OmniDrive.setPointAt, _OmniDrive.setDestination, Halted, ha, hs, hx, hy, hw]
  | stopPointing => exact ⟨h, by simp [step]⟩
  | setStopWithin distance =>
    refine ⟨?_, by simp [step]⟩
    obtain ⟨hs, hx, hy, hw⟩ := h
    simp only [step, _OmniDrive.setStopWithin]
    split <;> exact ⟨hs, hx, hy, hw⟩
  | analyze => exact ⟨h, by simp [step]⟩
  | niceStop => exact ⟨⟨rfl, h.2⟩, by simp [step]⟩
  | fullStop =>
    refine ⟨⟨rfl, rfl, rfl, rfl⟩, ?_⟩
    intro v hv
    simpa [step, _OmniDrive.fullStop] using hv.symm
  | setVelocity x y w =>
    obtain ⟨hs, hx, hy, hw⟩ := h
    simp [step, _OmniDrive.setVelocity, hs, Halted, hx, hy, hw]

theorem run_halted (cfg : Config) (geo : Geometry)
    (hv : 0 ≤ cfg.OMNIDRIVE_VELOCITY_MAX_ADJUST) (hr : 0 ≤ cfg.OMNIDRIVE_ROTATE_MAX_ADJUST)
    (calls : List Call) (s : _OmniDrive) (h : Halted s) (hgo : Call.go ∉ calls) :
    Halted (run cfg geo s calls).1 ∧ ∀ v ∈ (run cfg geo s calls).2, v = (0, 0, 0) := by
  induction calls generalizing s with
  | nil => exact ⟨h, by simp [run]⟩
  | cons c cs ih =>
    have hc : c ≠ Call.go := fun e => hgo (by simp [e])
    have hcs : Call.go ∉ cs := fun e => hgo (by simp [e])
    obtain ⟨h1, h2⟩ := step_halted cfg geo hv hr s h c hc
    obtain ⟨h3, h4⟩ := ih (step cfg geo s c).1 h1 hcs
    refine ⟨h3, ?_⟩
    intro v hv
    simp only [run, List.mem_append, Option.mem_toList, Option.mem_def] at hv
    rcases hv with hv | hv
    · exact h2 v hv
    · exact h4 v hv

theorem fullStop_halted (s : _OmniDrive) : Halted s.fullStop.1 := ⟨rfl, rfl, rfl, rfl⟩

/-- C1: with max steps `≥ 0`, for every controller state (Auto or Manual, any
velocities, any targets) and every pose: after `fullStop()` and any sequence
of calls without `go()`, a call of `apply()` leaves the velocity triple
exactly `(0,0,0)`, the command it sends, if any, is `(0,0,0)`, and so is every
command sent during the sequence. -/
theorem fullStop_apply_zero (cfg : Config) (geo : Geometry)
    (hv : 0 ≤ cfg.OMNIDRIVE_VELOCITY_MAX_ADJUST) (hr : 0 ≤ cfg.OMNIDRIVE_ROTATE_MAX_ADJUST)
    (s : _OmniDrive) (calls : List Call) (hgo : Call.go ∉ calls)
    (position : AngularCoordinate) :
    (((run cfg geo s.fullStop.1 calls).1.apply cfg geo position).1.xSpeed = 0 ∧
      ((run cfg geo s.fullStop.1 calls).1.apply cfg geo position).1.ySpeed = 0 ∧
      ((run cfg geo s.fullStop.1 calls).1.apply cfg geo position).1.omega = 0) ∧
    (∀ c, ((run cfg geo s.fullStop.1 calls).1.apply cfg geo position).2 = some c →
      c = (0, 0, 0)) ∧
    (∀ c ∈ (run cfg geo s.fullStop.1 calls).2, c = (0, 0, 0)) := by
  obtain ⟨h1, h2⟩ := run_halted cfg geo hv hr calls s.fullStop.1 (fullStop_halted s) hgo
  obtain ⟨h3, h4⟩ := apply_halted cfg geo position hv hr _ h1
  exact ⟨h3.2, h4, h2⟩

theorem fullStop_apply_zero_witness :
    (((run sampleConfig sampleGeometry sampleMoving.fullStop.1 sampleCalls).1.apply
        sampleConfig sampleGeometry origin).1.xSpeed = 0 ∧
      ((run sampleConfig sampleGeometry sampleMoving.fullStop.1 sampleCalls).1.apply
        sampleConfig sampleGeometry origin).1.ySpeed = 0 ∧
      ((run sampleConfig sampleGeometry sampleMoving.fullStop.1 sampleCalls).1.apply
        sampleConfig sampleGeometry origin).1.omega = 0) ∧
    (∀ c, ((run sampleConfig sampleGeometry sampleMoving.fullStop.1 sampleCalls).1.apply
        sampleConfig sampleGeometry origin).2 = some c → c = (0, 0, 0)) ∧
    (∀ c ∈ (run sampleConfig sampleGeometry sampleMoving.fullStop.1 sampleCalls).2,
      c = (0, 0, 0)) :=
  fullStop_apply_zero sampleConfig sampleGeometry (by norm_num [sampleConfig])
    (by norm_num [sampleConfig]) sampleMoving sampleCalls (by decide) origin

/-- C2: while the stop flag is set, `setVelocity(x, y, omega)` returns the
controller state unchanged and sends no command to the actuator. -/
theorem setVelocity_stopped (s : _OmniDrive) (x y omega : ℚ) (h : s.stop = true) :
    s.setVelocity x y omega = (s, none) := by
  simp [_OmniDrive.setVelocity, h]

theorem setVelocity_stopped_witness :
    sampleMoving.niceStop.stop = true ∧
      sampleMoving.niceStop.setVelocity 1 2 3 = (sampleMoving.niceStop, none) :=
  ⟨rfl, setVelocity_stopped sampleMoving.niceStop 1 2 3 rfl⟩

/-! ## Stopping under the limiter -/

theorem ramp_eq (cfg : Config) (b : Bool) (x : ℚ) :
    ramp cfg b x =
      if |x| > maxStep cfg b then (if x < 0 then x + maxStep cfg b else x - maxStep cfg b)
      else 0 := by
  simp [ramp, softAccellerate_eq]

theorem ramp_abs_le (cfg : Config) (b : Bool) (x : ℚ) (h : 0 ≤ maxStep cfg b) :
    |ramp cfg b x| ≤ |x| ∧ 0 ≤ ramp cfg b x * x := by
  rw [ramp_eq]
  split_ifs with h1 h2
  · rw [abs_of_neg h2] at h1 ⊢
    have h3 : x + maxStep cfg b < 0 := by linarith
    rw [abs_of_neg h3]
    exact ⟨by linarith, by nlinarith⟩
  · have h4 : 0 ≤ x := not_lt.mp h2
    rw [abs_of_nonneg h4] at h1 ⊢
    have h3 : 0 < x - maxStep cfg b := by linarith
    rw [abs_of_pos h3]
    exact ⟨by linarith, by nlinarith⟩
  · simp

/-- C4: with max steps `≥ 0`, for every state with the stop flag set and every
pose, one `apply()` call never increases the magnitude of an axis and never
flips its sign: for each of `xSpeed`, `ySpeed` and `omega`, `|new| ≤ |old|`
and `new * old ≥ 0`. -/
theorem apply_stopped_shrinks (cfg : Config) (geo : Geometry) (position : AngularCoordinate)
    (hv : 0 ≤ cfg.OMNIDRIVE_VELOCITY_MAX_ADJUST) (hr : 0 ≤ cfg.OMNIDRIVE_ROTATE_MAX_ADJUST)
    (s : _OmniDrive) (hs : s.stop = true) :
    (|(s.apply cfg geo position).1.xSpeed| ≤ |s.xSpeed| ∧
        (s.apply cfg geo position).1.xSpeed * s.xSpeed ≥ 0) ∧
      (|(s.apply cfg geo position).1.ySpeed| ≤ |s.ySpeed| ∧
        (s.apply cfg geo position).1.ySpeed * s.ySpeed ≥ 0) ∧
      (|(s.apply cfg geo position).1.omega| ≤ |s.omega| ∧
        (s.apply cfg geo position).1.omega * s.omega ≥ 0) := by
  cases ha : s.autoDrive
  · rw [apply_manual cfg geo position s ha]
    exact ⟨⟨le_refl _, mul_self_nonneg _⟩, ⟨le_refl _, mul_self_nonneg _⟩,
      ⟨le_refl _, mul_self_nonneg _⟩⟩
  · rw [apply_stopped cfg geo position s ha hs]
    exact ⟨ramp_abs_le cfg false s.xSpeed hv, ramp_abs_le cfg false s.ySpeed hv,
      ramp_abs_le cfg true s.omega hr⟩

theorem apply_stopped_shrinks_witness :
    (|(sampleMoving.niceStop.apply sampleConfig sampleGeometry origin).1.xSpeed|
          ≤ |sampleMoving.niceStop.xSpeed| ∧
        (sampleMoving.niceStop.apply sampleConfig sampleGeometry origin).1.xSpeed *
          sampleMoving.niceStop.xSpeed ≥ 0) ∧
      (|(sampleMoving.niceStop.apply sampleConfig sampleGeometry origin).1.ySpeed|
          ≤ |sampleMoving.niceStop.ySpeed| ∧
        (sampleMoving.niceStop.apply sampleConfig sampleGeometry origin).1.ySpeed *
          sampleMoving.niceStop.ySpeed ≥ 0) ∧
      (|(sampleMoving.niceStop.apply sampleConfig sampleGeometry origin).1.omega|
          ≤ |sampleMoving.niceStop.omega| ∧
        (sampleMoving.niceStop.apply sampleConfig sampleGeometry origin).1.omega *
          sampleMoving.niceStop.omega ≥ 0) :=
  apply_stopped_shrinks sampleConfig sampleGeometry origin (by norm_num [sampleConfig])
    (by norm_num [sampleConfig]) sampleMoving.niceStop rfl

/-! ## The velocity shapers -/

/-- C7 fails on the code: with `manouverMin = 1/50` and `manouverMax = 1/5`,
`findManouverVelocity(1) = 1/5` (the ceiling) but `findManouverVelocity(-1)`
is `-13/10`, unclamped, and `findManouverVelocity(1/100) = 1/50` (the floor)
but `findManouverVelocity(-1/100)` is `-13/1000`. -/
theorem findManouverVelocity_negative_unclamped :
    _OmniDrive.findManouverVelocity sampleConfig 1 = 1 / 5 ∧
      _OmniDrive.findManouverVelocity sampleConfig (-1) = -13 / 10 ∧
      _OmniDrive.findManouverVelocity sampleConfig (1 / 100) = 1 / 50 ∧
      _OmniDrive.findManouverVelocity sampleConfig (-(1 / 100)) = -13 / 1000 ∧
      _OmniDrive.findManouverVelocity sampleConfig (-1)
        ≠ -_OmniDrive.findManouverVelocity sampleConfig 1 := by
  norm_num [_OmniDrive.findManouverVelocity, sampleConfig]

/-- C9: for every `length` and every `angleError` with
`|angleError| > travelMaxAngle`, `findTravelVelocity(length, angleError) = 0`. -/
theorem findTravelVelocity_misaligned (cfg : Config) (length angleError : ℚ)
    (h : |angleError| > cfg.OMNIDRIVE_TRAVEL_MAX_ANGLE) :
    _OmniDrive.findTravelVelocity cfg length angleError = 0 := by
  simp [_OmniDrive.findTravelVelocity, h]

theorem findTravelVelocity_misaligned_witness :
    |(-1 : ℚ)| > sampleConfig.OMNIDRIVE_TRAVEL_MAX_ANGLE ∧
      _OmniDrive.findTravelVelocity sampleConfig 10 (-1) = 0 :=
  ⟨by norm_num [sampleConfig],
    findTravelVelocity_misaligned sampleConfig 10 (-1) (by norm_num [sampleConfig])⟩

/-- C10: assuming `0 < rotateMin ≤ rotateMax`, `findAngularVelocity` is
odd-symmetric: `findAngularVelocity(-e) = -findAngularVelocity(e)` for every
`e`. -/
theorem findAngularVelocity_odd (cfg : Config)
    (h1 : 0 < cfg.OMNIDRIVE_ROTATE_MIN_SPEED)
    (h2 : cfg.OMNIDRIVE_ROTATE_MIN_SPEED ≤ cfg.OMNIDRIVE_ROTATE_MAX_SPEED) (e : ℚ) :
    _OmniDrive.findAngularVelocity cfg (-e) = -_OmniDrive.findAngularVelocity cfg e := by
  unfold _OmniDrive.findAngularVelocity
  have hneg : -e * (3 / 2) = -(e * (3 / 2)) := by ring
  simp only [hneg, abs_neg]
  rcases lt_trichotomy (e * (3 / 2)) 0 with h | h | h
  · have a1 : -(e * (3 / 2)) > 0 := by linarith
    have a2 : ¬ e * (3 / 2) > 0 := by linarith
    simp only [a1, a2, if_true, if_false]
    split_ifs <;> simp
  · have a0 : ¬ |(0 : ℚ)| > cfg.OMNIDRIVE_ROTATE_MAX_SPEED := by
      rw [abs_zero]; linarith
    have a1 : |(0 : ℚ)| < cfg.OMNIDRIVE_ROTATE_MIN_SPEED / 4 := by
      rw [abs_zero]; linarith
    rw [h]
    simp only [neg_zero, a0, a1, if_true, if_false]
  · have a1 : ¬ -(e * (3 / 2)) > 0 := by linarith
    have a2 : e * (3 / 2) > 0 := h
    simp only [a1, a2, if_true, if_false]
    split_ifs <;> simp

theorem findAngularVelocity_odd_witness :
    _OmniDrive.findAngularVelocity sampleConfig (-(1 / 20))
      = -_OmniDrive.findAngularVelocity sampleConfig (1 / 20) :=
  findAngularVelocity_odd sampleConfig (by norm_num [sampleConfig])
    (by norm_num [sampleConfig]) (1 / 20)

/-! ## The angular shaper -/

/-- C12: for every state in Manual mode, every pose and every target: after
`setPointAt(target)` the mode is Auto, the stored destination and
`destination()` equal the position of the pose, the point-at target is
`target`, `pointingActive()` is true, and the stop flag and both velocity
triples are unchanged. -/
theorem setPointAt_manual (position : AngularCoordinate) (s : _OmniDrive) (target : Coordinate)
    (h : s.autoDrive = false) :
    (s.setPointAt position target).autoDrive = true ∧
      (s.setPointAt position target)._destination = position.toCoordinate ∧
      (∀ p, (s.setPointAt position target).destination p = position.toCoordinate) ∧
      (s.setPointAt position target).pointAt = target ∧
      (s.setPointAt position target).pointingActive = true ∧
      (s.setPointAt position target).stop = s.stop ∧
      ((s.setPointAt position target).xSpeed = s.xSpeed ∧
        (s.setPointAt position target).ySpeed = s.ySpeed ∧
        (s.setPointAt position target).omega = s.omega) ∧
      ((s.setPointAt position target).xOld = s.xOld ∧
        (s.setPointAt position target).yOld = s.yOld ∧
        (s.setPointAt position target).omegaOld = s.omegaOld) := by
  simp [_OmniDrive.setPointAt, _OmniDrive.setDestination, _OmniDrive.destination,
    _OmniDrive.pointAt, _OmniDrive.pointingActive, h]

theorem setPointAt_manual_witness :
    (sampleManual.setPointAt origin { x := 0, y := 1 }).autoDrive = true ∧
      (sampleManual.setPointAt origin { x := 0, y := 1 })._destination = origin.toCoordinate ∧
      (sampleManual.setPointAt origin { x := 0, y := 1 }).pointingActive = true :=
  have h := setPointAt_manual origin sampleManual { x := 0, y := 1 } rfl
  ⟨h.1, h.2.1, h.2.2.2.2.1⟩

/-- C14: `niceStop()`, `fullStop()` and `go()` never change the Auto/Manual
flag, the destination, the point-at target with its flag or stop-within; and
for every state with the stop flag clear, `niceStop()` followed by `go()`
gives the state back. -/
theorem stop_go_resumes (s : _OmniDrive) :
    (s.niceStop.autoDrive = s.autoDrive ∧ s.niceStop._destination = s._destination ∧
        s.niceStop._pointAt = s._pointAt ∧ s.niceStop._doPointAt = s._doPointAt ∧
        s.niceStop._stopWithin = s._stopWithin) ∧
      (s.fullStop.1.autoDrive = s.autoDrive ∧ s.fullStop.1._destination = s._destination ∧
        s.fullStop.1._pointAt = s._pointAt ∧ s.fullStop.1._doPointAt = s._doPointAt ∧
        s.fullStop.1._stopWithin = s._stopWithin) ∧
      (s.go.autoDrive = s.autoDrive ∧ s.go._destination = s._destination ∧
        s.go._pointAt = s._pointAt ∧ s.go._doPointAt = s._doPointAt ∧
        s.go._stopWithin = s._stopWithin) ∧
      (s.stop = false → s.niceStop.go = s) := by
  refine ⟨⟨rfl, rfl, rfl, rfl, rfl⟩, ⟨rfl, rfl, rfl, rfl, rfl⟩, ⟨rfl, rfl, rfl, rfl, rfl⟩, ?_⟩
  intro h
  cases s
  simp only [_OmniDrive.niceStop, _OmniDrive.go] at h ⊢
  rw [h]

theorem stop_go_resumes_witness : sampleManual.niceStop.go = sampleManual :=
  (stop_go_resumes sampleManual).2.2.2 rfl

theorem sameFrame_refl (s : _OmniDrive) : SameFrame s s :=
  ⟨rfl, rfl, rfl, rfl, rfl, rfl, rfl, rfl, rfl, rfl⟩

theorem sameFrame_trans (s t u : _OmniDrive) (h1 : SameFrame s t) (h2 : SameFrame t u) :
    SameFrame s u := by
  obtain ⟨a1, a2, a3, a4, a5, a6, a7, a8, a9, a10⟩ := h1
  obtain ⟨b1, b2, b3, b4, b5, b6, b7, b8, b9, b10⟩ := h2
  exact ⟨b1.trans a1, b2.trans a2, b3.trans a3, b4.trans a4, b5.trans a5, b6.trans a6,
    b7.trans a7, b8.trans a8, b9.trans a9, b10.trans a10⟩

theorem travelTowards_frame (cfg : Config) (geo : Geometry) (position : AngularCoordinate)
    (v : Vector) (s : _OmniDrive) :
    SameFrame s (_OmniDrive.travelTowards cfg geo position v s) ∧
      (_OmniDrive.travelTowards cfg geo position v s).ySpeed = s.ySpeed ∧
      (_OmniDrive.travelTowards cfg geo position v s)._doPointAt = s._doPointAt := by
  unfold _OmniDrive.travelTowards
  split
  · exact ⟨sameFrame_refl s, rfl, rfl⟩
  · exact ⟨⟨rfl, rfl, rfl, rfl, rfl, rfl, rfl, rfl, rfl, rfl⟩, rfl, rfl⟩

theorem manouverTowards_frame (cfg : Config) (geo : Geometry) (heading : Angle)
    (v : Vector) (s : _OmniDrive) :
    SameFrame s (_OmniDrive.manouverTowards cfg geo heading v s) ∧
      (_OmniDrive.manouverTowards cfg geo heading v s).omega = s.omega ∧
      (_OmniDrive.manouverTowards cfg geo heading v s)._doPointAt = s._doPointAt := by
  unfold _OmniDrive.manouverTowards
  split
  · exact ⟨sameFrame_refl s, rfl, rfl⟩
  · exact ⟨⟨rfl, rfl, rfl, rfl, rfl, rfl, rfl, rfl, rfl, rfl⟩, rfl, rfl⟩

theorem turnTowards_frame (cfg : Config) (geo : Geometry) (position : AngularCoordinate)
    (target : Coordinate) (s : _OmniDrive) :
    SameFrame s (_OmniDrive.turnTowards cfg geo position target s) ∧
      (_OmniDrive.turnTowards cfg geo position target s).xSpeed = s.xSpeed ∧
      (_OmniDrive.turnTowards cfg geo position target s).ySpeed = s.ySpeed := by
  unfold _OmniDrive.turnTowards
  simp only
  split_ifs
  · exact ⟨sameFrame_refl s, rfl, rfl⟩
  · exact ⟨⟨rfl, rfl, rfl, rfl, rfl, rfl, rfl, rfl, rfl, rfl⟩, rfl, rfl⟩
  · exact ⟨⟨rfl, rfl, rfl, rfl, rfl, rfl, rfl, rfl, rfl, rfl⟩, rfl, rfl⟩

theorem translation_frame (cfg : Config) (geo : Geometry) (position : AngularCoordinate)
    (s : _OmniDrive) :
    SameFrame s (translation cfg geo position s) ∧
      (translation cfg geo position s)._doPointAt = s._doPointAt := by
  unfold translation
  split
  · exact ⟨(manouverTowards_frame cfg geo _ _ s).1, (manouverTowards_frame cfg geo _ _ s).2.2⟩
  · exact ⟨(travelTowards_frame cfg geo _ _ s).1, (travelTowards_frame cfg geo _ _ s).2.2⟩

theorem drive_eq (cfg : Config) (geo : Geometry) (position : AngularCoordinate)
    (s : _OmniDrive) :
    _OmniDrive.drive cfg geo position s =
      if (translation cfg geo position s).pointingActive = true ∧
          (destinationVector geo position s).magnitude <
            cfg.OMNIDRIVE_POINTING_DESTINATION_MAX_DISTANCE -
              (translation cfg geo position s)._stopWithin then
        _OmniDrive.turnTowards cfg geo position (translation cfg geo position s)._pointAt
          (translation cfg geo position s)
      else translation cfg geo position s := rfl

theorem drive_frame (cfg : Config) (geo : Geometry) (position : AngularCoordinate)
    (s : _OmniDrive) :
    SameFrame s (_OmniDrive.drive cfg geo position s) ∧
      (_OmniDrive.drive cfg geo position s).xSpeed = (translation cfg geo position s).xSpeed ∧
      (_OmniDrive.drive cfg geo position s).ySpeed = (translation cfg geo position s).ySpeed := by
  rw [drive_eq]
  split
  · exact ⟨sameFrame_trans _ _ _ (translation_frame cfg geo position s).1
      (turnTowards_frame cfg geo position _ _).1,
      (turnTowards_frame cfg geo position _ _).2.1, (turnTowards_frame cfg geo position _ _).2.2⟩
  · exact ⟨(translation_frame cfg geo position s).1, rfl, rfl⟩

theorem snapshot_frame (s : _OmniDrive) :
    (snapshot s).xOld = s.xSpeed ∧ (snapshot s).yOld = s.ySpeed ∧
      (snapshot s).omegaOld = s.omega ∧ (snapshot s).travelReversed = s.travelReversed ∧
      (snapshot s).onlyManouver = s.onlyManouver ∧ (snapshot s).autoDrive = s.autoDrive ∧
      (snapshot s).stop = s.stop ∧ (snapshot s)._destination = s._destination ∧
      (snapshot s)._pointAt = s._pointAt ∧ (snapshot s)._stopWithin = s._stopWithin :=
  ⟨rfl, rfl, rfl, rfl, rfl, rfl, rfl, rfl, rfl, rfl⟩

theorem targets_frame (cfg : Config) (geo : Geometry) (position : AngularCoordinate)
    (s : _OmniDrive) : SameFrame (snapshot s) (targets cfg geo position s) := by
  unfold targets
  split
  · exact sameFrame_refl _
  · exact (drive_frame cfg geo position (snapshot s)).1

theorem apply_auto (cfg : Config) (geo : Geometry) (position : AngularCoordinate)
    (s : _OmniDrive) (ha : s.autoDrive = true) :
    s.apply cfg geo position =
      (limiter cfg (targets cfg geo position s),
        some ((limiter cfg (targets cfg geo position s)).xSpeed,
          (limiter cfg (targets cfg geo position s)).ySpeed,
          (limiter cfg (targets cfg geo position s)).omega)) := by
  cases hs : s.stop <;> simp [_OmniDrive.apply, ha, hs, targets, limiter, snapshot]

/-- C13: for every state and pose, `apply()` leaves the Auto/Manual flag, the
stop flag, the destination (stored and as `destination()` returns it), the
point-at target position and stop-within unchanged; and in Manual mode
`apply()` changes no field at all and sends no command. -/
theorem apply_keeps_mode (cfg : Config) (geo : Geometry) (position : AngularCoordinate)
    (s : _OmniDrive) :
    (s.apply cfg geo position).1.autoDrive = s.autoDrive ∧
      (s.apply cfg geo position).1.stop = s.stop ∧
      (s.apply cfg geo position).1._destination = s._destination ∧
      (∀ p, (s.apply cfg geo position).1.destination p = s.destination p) ∧
      (s.apply cfg geo position).1.pointAt = s.pointAt ∧
      (s.apply cfg geo position).1.stopWithin = s.stopWithin ∧
      (s.autoDrive = false → s.apply cfg geo position = (s, none)) := by
  cases ha : s.autoDrive
  · rw [apply_manual cfg geo position s ha]
    exact ⟨ha, rfl, rfl, fun _ => rfl, rfl, rfl, fun _ => rfl⟩
  · rw [apply_auto cfg geo position s ha]
    obtain ⟨-, -, -, -, -, f6, f7, f8, f9, f10⟩ := targets_frame cfg geo position s
    obtain ⟨-, -, -, -, -, g6, g7, g8, g9, g10⟩ := snapshot_frame s
    have e6 : (limiter cfg (targets cfg geo position s)).autoDrive = s.autoDrive :=
      f6.trans g6
    have e8 : (limiter cfg (targets cfg geo position s))._destination = s._destination :=
      f8.trans g8
    refine ⟨e6.trans ha, f7.trans g7, e8, ?_, f9.trans g9, f10.trans g10, ?_⟩
    · intro p
      simp only [_OmniDrive.destination, e6, e8]
    · intro h
      exact absurd h (by simp)

theorem apply_keeps_mode_witness :
    sampleManual.apply sampleConfig sampleGeometry origin = (sampleManual, none) :=
  (apply_keeps_mode sampleConfig sampleGeometry origin sampleManual).2.2.2.2.2.2 rfl

/-! ## The travel scenario -/

/-- C17: for every heading and every destination vector whose magnitude is
below the stop-within tolerance, `manouverTowards` returns at once: it changes
no field, so on the zeroed targets of a tick it leaves `xSpeed = 0` and
`ySpeed = 0`, whatever the direction of the vector. -/
theorem manouverTowards_within (cfg : Config) (geo : Geometry) (heading : Angle)
    (v : Vector) (s : _OmniDrive) (h : v.magnitude < s.stopWithin) :
    _OmniDrive.manouverTowards cfg geo heading v (snapshot s) = snapshot s ∧
      (_OmniDrive.manouverTowards cfg geo heading v (snapshot s)).xSpeed = 0 ∧
      (_OmniDrive.manouverTowards cfg geo heading v (snapshot s)).ySpeed = 0 := by
  have e : _OmniDrive.manouverTowards cfg geo heading v (snapshot s) = snapshot s := by
    unfold _OmniDrive.manouverTowards
    rw [if_pos (by exact h)]
  rw [e]
  exact ⟨rfl, rfl, rfl⟩

theorem manouverTowards_within_witness :
    (_OmniDrive.manouverTowards sampleConfig sampleGeometry origin.toAngle
        { magnitude := 1 / 200, phi := 1 }
        (snapshot (sampleMoving.setStopWithin sampleConfig 0))).xSpeed = 0 ∧
      (_OmniDrive.manouverTowards sampleConfig sampleGeometry origin.toAngle
        { magnitude := 1 / 200, phi := 1 }
        (snapshot (sampleMoving.setStopWithin sampleConfig 0))).ySpeed = 0 :=
  (manouverTowards_within sampleConfig sampleGeometry origin.toAngle
    { magnitude := 1 / 200, phi := 1 } (sampleMoving.setStopWithin sampleConfig 0)
    (by norm_num [_OmniDrive.setStopWithin, _OmniDrive.stopWithin, sampleConfig])).2

theorem turnTowards_far (cfg : Config) (geo : Geometry) (position : AngularCoordinate)
    (target : Coordinate) (s : _OmniDrive)
    (hd : cfg.OMNIDRIVE_POINTING_TARGET_MIN_DISTANCE + s._stopWithin
      ≤ (geo.getVector position target).magnitude) :
    _OmniDrive.turnTowards cfg geo position target s =
      if |turnError geo position target| > cfg.OMNIDRIVE_ROTATE_ACCEPTABLE_DELTA_ANGLE then
        { s with omega := _OmniDrive.findAngularVelocity cfg (turnError geo position target) }
      else { s with _doPointAt := false } := by
  unfold _OmniDrive.turnTowards
  simp only
  rw [if_neg (not_lt.mpr hd)]
  rfl

/-- C18: for every pose and point-at target whose distance is at least the
pointing-target minimum distance plus stop-within: if the heading error to the
target satisfies `|error| ≤` the acceptable-delta threshold (equality
included), `turnTowards` sets `pointingActive()` to false and leaves `omega`
unchanged; if `|error| >` the threshold it sets
`omega = findAngularVelocity(error)` and leaves `pointingActive()` as it was,
so true when it was true. -/
theorem turnTowards_boundary (cfg : Config) (geo : Geometry) (position : AngularCoordinate)
    (target : Coordinate) (s : _OmniDrive)
    (hd : cfg.OMNIDRIVE_POINTING_TARGET_MIN_DISTANCE + s.stopWithin
      ≤ (geo.getVector position target).magnitude) :
    (|turnError geo position target| ≤ cfg.OMNIDRIVE_ROTATE_ACCEPTABLE_DELTA_ANGLE →
        (_OmniDrive.turnTowards cfg geo position target s).pointingActive = false ∧
        (_OmniDrive.turnTowards cfg geo position target s).omega = s.omega) ∧
      (|turnError geo position target| > cfg.OMNIDRIVE_ROTATE_ACCEPTABLE_DELTA_ANGLE →
        (_OmniDrive.turnTowards cfg geo position target s).omega
          = _OmniDrive.findAngularVelocity cfg (turnError geo position target) ∧
        (_OmniDrive.turnTowards cfg geo position target s).pointingActive = s.pointingActive ∧
        (s.pointingActive = true →
          (_OmniDrive.turnTowards cfg geo position target s).pointingActive = true)) := by
  rw [turnTowards_far cfg geo position target s hd]
  constructor
  · intro h
    rw [if_neg (not_lt.mpr h)]
    exact ⟨rfl, rfl⟩
  · intro h
    rw [if_pos h]
    exact ⟨rfl, rfl, fun hp => hp⟩

theorem samplePointing_far (phi : ℚ) :
    sampleConfig.OMNIDRIVE_POINTING_TARGET_MIN_DISTANCE + samplePointing.stopWithin
      ≤ ((constGeometry phi).getVector origin samplePointing.pointAt).magnitude := by
  norm_num [constGeometry, sampleGeometry, samplePointing, _OmniDrive.setPointAt,
    _OmniDrive.init, _OmniDrive.pointAt, _OmniDrive.stopWithin, origin, sampleConfig]

theorem turnTowards_boundary_witness :
    |turnError (constGeometry (1 / 20)) origin samplePointing.pointAt|
        = sampleConfig.OMNIDRIVE_ROTATE_ACCEPTABLE_DELTA_ANGLE ∧
      samplePointing.pointingActive = true ∧
      (_OmniDrive.turnTowards sampleConfig (constGeometry (1 / 20)) origin
        samplePointing.pointAt samplePointing).pointingActive = false ∧
      (_OmniDrive.turnTowards sampleConfig (constGeometry (1 / 20)) origin
        samplePointing.pointAt samplePointing).omega = samplePointing.omega :=
  have e : |turnError (constGeometry (1 / 20)) origin samplePointing.pointAt|
      = sampleConfig.OMNIDRIVE_ROTATE_ACCEPTABLE_DELTA_ANGLE := by
    rw [show turnError (constGeometry (1 / 20)) origin samplePointing.pointAt = 1 / 20 from rfl,
      abs_of_pos (by norm_num)]
    rfl
  have h := (turnTowards_boundary sampleConfig (constGeometry (1 / 20)) origin
    samplePointing.pointAt samplePointing (samplePointing_far (1 / 20))).1 e.le
  ⟨e, rfl, h.1, h.2⟩

/-- C20: in an Auto-mode, non-stopped tick with pointing active,
destination-vector magnitude below the pointing-activation distance minus
stop-within, point-at target distance at least the pointing-target minimum
distance plus stop-within and `|heading error to the point-at target|` above
the acceptable-delta threshold, the omega target fed to the limiter is
`findAngularVelocity` of that heading error, whichever translation strategy
ran and whatever omega it had set, and the x and y targets are those of the
translation strategy. -/
theorem turn_takes_precedence (cfg : Config) (geo : Geometry) (position : AngularCoordinate)
    (s : _OmniDrive) (ha : s.autoDrive = true) (hs : s.stop = false)
    (hp : s.pointingActive = true)
    (hnear : (destinationVector geo position s).magnitude
      < cfg.OMNIDRIVE_POINTING_DESTINATION_MAX_DISTANCE - s.stopWithin)
    (hfar : cfg.OMNIDRIVE_POINTING_TARGET_MIN_DISTANCE + s.stopWithin
      ≤ (geo.getVector position s.pointAt).magnitude)
    (herr : |turnError geo position s.pointAt| > cfg.OMNIDRIVE_ROTATE_ACCEPTABLE_DELTA_ANGLE) :
    (targets cfg geo position s).omega
        = _OmniDrive.findAngularVelocity cfg (turnError geo position s.pointAt) ∧
      (targets cfg geo position s).xSpeed = (translation cfg geo position (snapshot s)).xSpeed ∧
      (targets cfg geo position s).ySpeed = (translation cfg geo position (snapshot s)).ySpeed ∧
      (s.apply cfg geo position).1.omega =
        _OmniDrive.softAccellerate cfg
          (_OmniDrive.findAngularVelocity cfg (turnError geo position s.pointAt)) s.omega true ∧
      (s.apply cfg geo position).1.xSpeed =
        _OmniDrive.softAccellerate cfg (translation cfg geo position (snapshot s)).xSpeed
          s.xSpeed false ∧
      (s.apply cfg geo position).1.ySpeed =
        _OmniDrive.softAccellerate cfg (translation cfg geo position (snapshot s)).ySpeed
          s.ySpeed false := by
  obtain ⟨hf, hpa⟩ := translation_frame cfg geo position (snapshot s)
  obtain ⟨-, -, -, -, -, -, -, -, f9, f10⟩ := hf
  have e9 : (translation cfg geo position (snapshot s))._pointAt = s.pointAt := f9
  have e10 : (translation cfg geo position (snapshot s))._stopWithin = s.stopWithin := f10
  have hpa1 : (translation cfg geo position (snapshot s)).pointingActive = true :=
    hpa.trans hp
  have hd : destinationVector geo position (snapshot s) = destinationVector geo position s := rfl
  have ht : targets cfg geo position s =
      { translation cfg geo position (snapshot s) with
        omega := _OmniDrive.findAngularVelocity cfg (turnError geo position s.pointAt) } := by
    unfold targets
    rw [hs]
    simp only [Bool.false_eq_true, if_false]
    rw [drive_eq, hd, e10, if_pos ⟨hpa1, hnear⟩, e9,
      turnTowards_far cfg geo position s.pointAt _ (by rw [e10]; exact hfar), if_pos herr]
    simp only [e9, e10]
  have hw : (targets cfg geo position s).omega
      = _OmniDrive.findAngularVelocity cfg (turnError geo position s.pointAt) := by rw [ht]
  have hx : (targets cfg geo position s).xSpeed
      = (translation cfg geo position (snapshot s)).xSpeed := by rw [ht]
  have hy : (targets cfg geo position s).ySpeed
      = (translation cfg geo position (snapshot s)).ySpeed := by rw [ht]
  obtain ⟨f1, f2, f3, -⟩ := targets_frame cfg geo position s
  refine ⟨hw, hx, hy, ?_⟩
  rw [apply_auto cfg geo position s ha]
  refine ⟨?_, ?_, ?_⟩
  · show _OmniDrive.softAccellerate cfg (targets cfg geo position s).omega
      (targets cfg geo position s).omegaOld true = _
    rw [hw, f3]
    rfl
  · show _OmniDrive.softAccellerate cfg (targets cfg geo position s).xSpeed
      (targets cfg geo position s).xOld false = _
    rw [hx, f1]
    rfl
  · show _OmniDrive.softAccellerate cfg (targets cfg geo position s).ySpeed
      (targets cfg geo position s).yOld false = _
    rw [hy, f2]
    rfl

/-! ## Binary32 rounding -/

theorem roundHalfEven_cases (q : ℚ) :
    roundHalfEven q = ⌊q⌋ ∧ q - ⌊q⌋ ≤ 1 / 2 ∨ roundHalfEven q = ⌊q⌋ + 1 ∧ 1 / 2 ≤ q - ⌊q⌋ := by
  unfold roundHalfEven
  split_ifs with h1 h2 h3
  · exact Or.inl ⟨rfl, h1.le⟩
  · exact Or.inr ⟨rfl, h2.le⟩
  · exact Or.inl ⟨rfl, not_lt.mp h2⟩
  · exact Or.inr ⟨rfl, not_lt.mp h1⟩

theorem roundHalfEven_sub_le (q : ℚ) : |(roundHalfEven q : ℚ) - q| ≤ 1 / 2 := by
  have h0 := Int.floor_le q
  have h1 := Int.lt_floor_add_one q
  rw [abs_le]
  rcases roundHalfEven_cases q with ⟨e, h⟩ | ⟨e, h⟩
  · rw [e]; constructor <;> linarith
  · rw [e]; push_cast; constructor <;> linarith

theorem roundHalfEven_intCast (n : ℤ) : roundHalfEven (n : ℚ) = n := by
  unfold roundHalfEven
  simp

theorem roundHalfEven_eval (q : ℚ) (n : ℤ) (h1 : (n : ℚ) - 1 / 2 < q) (h2 : q < n + 1 / 2) :
    roundHalfEven q = n := by
  have h := roundHalfEven_sub_le q
  rw [abs_le] at h
  have a : ((roundHalfEven q - n : ℤ) : ℚ) < 1 := by push_cast; linarith
  have b : (-1 : ℚ) < ((roundHalfEven q - n : ℤ) : ℚ) := by push_cast; linarith
  have a1 : roundHalfEven q - n < 1 := by exact_mod_cast a
  have b1 : -1 < roundHalfEven q - n := by exact_mod_cast b
  omega

theorem roundHalfEven_mono (a b : ℚ) (h : a ≤ b) : roundHalfEven a ≤ roundHalfEven b := by
  have hf : ⌊a⌋ ≤ ⌊b⌋ := Int.floor_mono h
  rcases lt_or_eq_of_le hf with hlt | heq
  · rcases roundHalfEven_cases a with ⟨e, -⟩ | ⟨e, -⟩ <;>
      rcases roundHalfEven_cases b with ⟨e2, -⟩ | ⟨e2, -⟩ <;> omega
  · unfold roundHalfEven
    rw [heq]
    split_ifs <;> first | omega | (exfalso; linarith)

theorem roundHalfEven_nonneg (q : ℚ) (h : 0 ≤ q) : 0 ≤ roundHalfEven q := by
  have := roundHalfEven_mono 0 q h
  rwa [show roundHalfEven 0 = 0 from by simpa using roundHalfEven_intCast 0] at this

theorem binade_ge (x : ℚ) : -126 ≤ binade x := le_max_right _ _

theorem quantum_pos (x : ℚ) : 0 < quantum x := zpow_pos (by norm_num) _

theorem lt_zpow_binade (x : ℚ) : x < 2 ^ (binade x + 1) := by
  have h := Int.lt_zpow_succ_log_self (b := 2) (by norm_num) x
  have h2 : ((2 : ℕ) : ℚ) ^ (Int.log 2 x + 1) ≤ 2 ^ (binade x + 1) := by
    rw [Nat.cast_ofNat]
    exact zpow_le_zpow_right₀ (by norm_num) (by unfold binade; have := le_max_left (Int.log 2 x) (-126); omega)
  exact lt_of_lt_of_le h h2

theorem zpow_binade_le (x : ℚ) (hx : 0 < x) : 2 ^ binade x ≤ x ∨ binade x = -126 := by
  unfold binade
  rcases le_total (Int.log 2 x) (-126) with h | h
  · right; exact max_eq_right h
  · left
    rw [max_eq_left h]
    have := Int.zpow_log_le_self (b := 2) (by norm_num) hx
    rwa [Nat.cast_ofNat] at this

theorem binade_eq (x : ℚ) (b : ℤ) (hb : -126 ≤ b) (h1 : 2 ^ b ≤ x) (h2 : x < 2 ^ (b + 1)) :
    binade x = b := by
  have hx : 0 < x := lt_of_lt_of_le (zpow_pos (by norm_num) b) h1
  have a1 : b ≤ Int.log 2 x := by
    rw [← Int.zpow_le_iff_le_log (by norm_num) hx, Nat.cast_ofNat]; exact h1
  have a2 : Int.log 2 x < b + 1 := by
    rw [← Int.lt_zpow_iff_log_lt (by norm_num) hx, Nat.cast_ofNat]; exact h2
  unfold binade
  rw [max_eq_left (by omega)]
  omega

theorem binade_small (x : ℚ) (hx : 0 < x) (h : x < 2 ^ (-126 : ℤ)) : binade x = -126 := by
  have a2 : Int.log 2 x < -126 := by
    rw [← Int.lt_zpow_iff_log_lt (by norm_num) hx, Nat.cast_ofNat]; exact h
  unfold binade
  exact max_eq_right (by omega)

theorem binade_mono (x y : ℚ) (hx : 0 < x) (h : x ≤ y) : binade x ≤ binade y := by
  unfold binade
  exact max_le_max (Int.log_mono_right hx h) (le_refl _)

theorem roundMag_zero : roundMag 0 = 0 := by
  unfold roundMag
  rw [zero_div, show roundHalfEven 0 = 0 from by simpa using roundHalfEven_intCast 0]
  simp

theorem roundMag_nonneg (x : ℚ) (hx : 0 ≤ x) : 0 ≤ roundMag x := by
  unfold roundMag
  have h := roundHalfEven_nonneg (x / quantum x) (div_nonneg hx (quantum_pos x).le)
  exact mul_nonneg (by exact_mod_cast h) (quantum_pos x).le

theorem zpow_split (b : ℤ) (k : ℤ) : (2 : ℚ) ^ (b + k) = 2 ^ k * 2 ^ b := by
  rw [zpow_add₀ (by norm_num), mul_comm]

theorem roundMag_le_top (x : ℚ) : roundMag x ≤ 2 ^ (binade x + 1) := by
  unfold roundMag
  have hq := quantum_pos x
  have h1 : x / quantum x ≤ ((2 ^ 24 : ℤ) : ℚ) := by
    rw [div_le_iff₀ hq]
    have := (lt_zpow_binade x).le
    unfold quantum
    have e : (2 : ℚ) ^ (binade x + 1) = ((2 ^ 24 : ℤ) : ℚ) * 2 ^ (binade x - 23) := by
      rw [show binade x + 1 = (binade x - 23) + 24 from by ring, zpow_split]
      norm_num
    rw [← e]; exact this
  have h2 := roundHalfEven_mono _ _ h1
  rw [roundHalfEven_intCast] at h2
  have h3 : (roundHalfEven (x / quantum x) : ℚ) ≤ ((2 ^ 24 : ℤ) : ℚ) := by exact_mod_cast h2
  have e : (2 : ℚ) ^ (binade x + 1) = ((2 ^ 24 : ℤ) : ℚ) * quantum x := by
    unfold quantum
    rw [show binade x + 1 = (binade x - 23) + 24 from by ring, zpow_split]
    norm_num
  rw [e]
  exact mul_le_mul_of_nonneg_right h3 hq.le

theorem roundMag_ge_bot (x : ℚ) (h : 2 ^ binade x ≤ x) : 2 ^ binade x ≤ roundMag x := by
  unfold roundMag
  have hq := quantum_pos x
  have e : (2 : ℚ) ^ (binade x) = ((2 ^ 23 : ℤ) : ℚ) * quantum x := by
    unfold quantum
    rw [show binade x = (binade x - 23) + 23 from by ring, zpow_split]
    norm_num
  have h1 : ((2 ^ 23 : ℤ) : ℚ) ≤ x / quantum x := by
    rw [le_div_iff₀ hq, ← e]; exact h
  have h2 := roundHalfEven_mono _ _ h1
  rw [roundHalfEven_intCast] at h2
  have h3 : ((2 ^ 23 : ℤ) : ℚ) ≤ (roundHalfEven (x / quantum x) : ℚ) := by exact_mod_cast h2
  rw [e]
  exact mul_le_mul_of_nonneg_right h3 hq.le

theorem roundMag_mono (x y : ℚ) (hx : 0 ≤ x) (h : x ≤ y) : roundMag x ≤ roundMag y := by
  rcases eq_or_lt_of_le hx with h0 | h0
  · rw [← h0, roundMag_zero]; exact roundMag_nonneg y (hx.trans h)
  · have hb := binade_mono x y h0 h
    rcases eq_or_lt_of_le hb with e | lt
    · unfold roundMag quantum
      rw [e]
      have hq : (0 : ℚ) < 2 ^ (binade y - 23) := zpow_pos (by norm_num) _
      have := roundHalfEven_mono _ _ (div_le_div_of_nonneg_right h hq.le)
      exact mul_le_mul_of_nonneg_right (by exact_mod_cast this) hq.le
    · have hy : 0 < y := lt_of_lt_of_le h0 h
      have hy2 : 2 ^ binade y ≤ y := by
        rcases zpow_binade_le y hy with a | a
        · exact a
        · have := binade_ge x; omega
      calc roundMag x ≤ 2 ^ (binade x + 1) := roundMag_le_top x
        _ ≤ 2 ^ binade y := zpow_le_zpow_right₀ (by norm_num) (by omega)
        _ ≤ roundMag y := roundMag_ge_bot y hy2

theorem round32_zero : round32 0 = 0 := by
  unfold round32
  simp [roundMag_zero]

theorem round32_of_nonneg (x : ℚ) (h : 0 ≤ x) : round32 x = roundMag x := by
  unfold round32
  rw [if_neg (not_lt.mpr h)]

theorem round32_of_neg (x : ℚ) (h : x < 0) : round32 x = -roundMag (-x) := by
  unfold round32
  rw [if_pos h]

theorem round32_neg (x : ℚ) : round32 (-x) = -round32 x := by
  rcases lt_trichotomy x 0 with h | h | h
  · rw [round32_of_neg x h, round32_of_nonneg (-x) (by linarith), neg_neg]
  · rw [h, neg_zero, round32_zero, neg_zero]
  · rw [round32_of_neg (-x) (by linarith), round32_of_nonneg x h.le, neg_neg]

theorem round32_nonneg (x : ℚ) (h : 0 ≤ x) : 0 ≤ round32 x := by
  rw [round32_of_nonneg x h]; exact roundMag_nonneg x h

theorem round32_mono (x y : ℚ) (h : x ≤ y) : round32 x ≤ round32 y := by
  rcases lt_or_le x 0 with hx | hx
  · rcases lt_or_le y 0 with hy | hy
    · rw [round32_of_neg x hx, round32_of_neg y hy]
      have := roundMag_mono (-y) (-x) (by linarith) (by linarith)
      linarith
    · rw [round32_of_neg x hx]
      have h1 := roundMag_nonneg (-x) (by linarith)
      have h2 := round32_nonneg y hy
      linarith
  · rw [round32_of_nonneg x hx, round32_of_nonneg y (hx.trans h)]
    exact roundMag_mono x y hx h

theorem roundMag_error (x : ℚ) (hx : 0 ≤ x) :
    |roundMag x - x| ≤ x / 2 ^ 24 + 1 / 2 ^ 150 := by
  have hq := quantum_pos x
  have h1 : |roundMag x - x| ≤ quantum x / 2 := by
    have h := roundHalfEven_sub_le (x / quantum x)
    have e : roundMag x - x = ((roundHalfEven (x / quantum x) : ℚ) - x / quantum x) * quantum x := by
      unfold roundMag
      field_simp
    rw [e, abs_mul, abs_of_pos hq]
    calc |(roundHalfEven (x / quantum x) : ℚ) - x / quantum x| * quantum x
        ≤ 1 / 2 * quantum x := mul_le_mul_of_nonneg_right h hq.le
      _ = quantum x / 2 := by ring
  rcases eq_or_lt_of_le hx with h0 | h0
  · rw [← h0, roundMag_zero]
    norm_num
  have h2 : quantum x / 2 ≤ x / 2 ^ 24 + 1 / 2 ^ 150 := by
    · rcases zpow_binade_le x h0 with a | a
      · have e : quantum x / 2 = 2 ^ binade x / 2 ^ 24 := by
          unfold quantum
          rw [show binade x - 23 = binade x + (-23) from by ring, zpow_add₀ (by norm_num)]
          norm_num
          ring
        rw [e]
        have : (2 : ℚ) ^ binade x / 2 ^ 24 ≤ x / 2 ^ 24 :=
          div_le_div_of_nonneg_right a (by norm_num)
        have : (0 : ℚ) ≤ 1 / 2 ^ 150 := by norm_num
        linarith
      · have e : quantum x / 2 = 1 / 2 ^ 150 := by
          unfold quantum
          rw [a]
          norm_num
        rw [e]
        have : 0 ≤ x / 2 ^ 24 := div_nonneg hx (by norm_num)
        linarith
  exact h1.trans h2

theorem round32_error (x : ℚ) : |round32 x - x| ≤ |x| / 2 ^ 24 + 1 / 2 ^ 150 := by
  rcases lt_or_le x 0 with hx | hx
  · rw [round32_of_neg x hx, abs_of_neg hx]
    have := roundMag_error (-x) (by linarith)
    rw [show -roundMag (-x) - x = -(roundMag (-x) - -x) from by ring, abs_neg]
    exact this
  · rw [round32_of_nonneg x hx, abs_of_nonneg hx]
    exact roundMag_error x hx

theorem roundMag_grid (r : ℚ) (n : ℤ) (h : r = n * quantum r) : roundMag r = r := by
  unfold roundMag
  have hq := quantum_pos r
  have e : r / quantum r = n := by
    rw [div_eq_iff hq.ne']; exact h
  rw [e, roundHalfEven_intCast]
  exact h.symm

theorem quantum_eq (x : ℚ) (b : ℤ) (h : binade x = b) : quantum x = 2 ^ (b - 23) := by
  unfold quantum; rw [h]

theorem roundMag_idem (x : ℚ) (hx : 0 ≤ x) : roundMag (roundMag x) = roundMag x := by
  rcases eq_or_lt_of_le hx with h0 | h0
  · rw [← h0, roundMag_zero, roundMag_zero]
  · have hr0 := roundMag_nonneg x hx
    rcases eq_or_lt_of_le hr0 with hz | hpos
    · rw [← hz, roundMag_zero]
    · have htop := roundMag_le_top x
      have hb := binade_ge x
      rcases eq_or_lt_of_le htop with etop | ltop
      · -- the rounded value is the next power of two
        have hbin : binade (roundMag x) = binade x + 1 := by
          rw [etop]
          exact binade_eq _ _ (by omega) (le_refl _)
            (zpow_lt_zpow_right₀ (by norm_num) (by omega))
        apply roundMag_grid _ (2 ^ 23)
        have e := zpow_split (binade x + 1 - 23) 23
        rw [show binade x + 1 - 23 + 23 = binade x + 1 from by ring] at e
        rw [quantum_eq _ _ hbin, etop, e]
        norm_num
      · have hbin : binade (roundMag x) = binade x := by
          rcases zpow_binade_le x h0 with a | a
          · exact binade_eq _ _ hb (roundMag_ge_bot x a) ltop
          · rcases le_or_lt (2 ^ binade x) (roundMag x) with c | c
            · exact binade_eq _ _ hb c ltop
            · rw [a] at c ⊢
              exact binade_small _ hpos c
        apply roundMag_grid _ (roundHalfEven (x / quantum x))
        rw [quantum_eq _ _ hbin]
        rfl

theorem round32_idem (x : ℚ) : round32 (round32 x) = round32 x := by
  rcases lt_or_le x 0 with hx | hx
  · rw [round32_of_neg x hx, round32_neg, round32_of_nonneg _ (roundMag_nonneg _ (by linarith)),
      roundMag_idem _ (by linarith)]
  · rw [round32_of_nonneg x hx, round32_of_nonneg _ (roundMag_nonneg _ hx), roundMag_idem _ hx]

theorem round32_eval (x : ℚ) (b n : ℤ) (hb : -126 ≤ b) (h1 : 2 ^ b ≤ x) (h2 : x < 2 ^ (b + 1))
    (h3 : (n : ℚ) - 1 / 2 < x / 2 ^ (b - 23)) (h4 : x / 2 ^ (b - 23) < n + 1 / 2) :
    round32 x = n * 2 ^ (b - 23) := by
  have hx : 0 < x := lt_of_lt_of_le (zpow_pos (by norm_num) b) h1
  rw [round32_of_nonneg x hx.le]
  unfold roundMag
  rw [quantum_eq x b (binade_eq x b hb h1 h2), roundHalfEven_eval _ n h3 h4]

theorem round32_abs_le (y m : ℚ) (hm : IsF32 m) (h : |y| ≤ m) : |round32 y| ≤ m := by
  rw [abs_le] at h ⊢
  have h1 := round32_mono y m h.2
  have h2 := round32_mono (-m) y h.1
  rw [round32_neg] at h2
  rw [hm] at h1 h2
  exact ⟨h2, h1⟩

theorem round32_pos_imp (y : ℚ) (h : 0 < round32 y) : 0 < y := by
  by_contra c
  have := round32_mono y 0 (not_lt.mp c)
  rw [round32_zero] at this
  linarith

theorem round32_neg_imp (y : ℚ) (h : round32 y < 0) : y < 0 := by
  by_contra c
  have := round32_nonneg y (not_lt.mp c)
  linarith

theorem maxStep32_isF32 (cfg : Config) (b : Bool) : IsF32 (maxStep32 cfg b) :=
  round32_idem _

theorem maxStep32_nonneg (cfg : Config) (b : Bool) (h : 0 ≤ maxStep cfg b) :
    0 ≤ maxStep32 cfg b :=
  round32_nonneg _ h

/-! ## The limiter in binary32 -/

theorem softAccellerate32_eq (cfg : Config) (n c : ℚ) (b : Bool) :
    _OmniDrive.softAccellerate32 cfg n c b =
      if |round32 (n - c)| > maxStep32 cfg b then
        (if round32 (n - c) > 0 then round32 (c + maxStep32 cfg b)
         else round32 (c - maxStep32 cfg b))
      else n := rfl

theorem softAccellerate32_small (cfg : Config) (n c : ℚ) (b : Bool)
    (h : |n - c| ≤ maxStep32 cfg b) : _OmniDrive.softAccellerate32 cfg n c b = n := by
  rw [softAccellerate32_eq, if_neg]
  exact not_lt.mpr (round32_abs_le _ _ (maxStep32_isF32 cfg b) h)

theorem softAccellerate32_large (cfg : Config) (n c : ℚ) (b : Bool)
    (hm : 0 ≤ maxStep32 cfg b) (h : |round32 (n - c)| > maxStep32 cfg b) :
    (maxStep32 cfg b < n - c ∧
        _OmniDrive.softAccellerate32 cfg n c b = round32 (c + maxStep32 cfg b)) ∨
      (n - c < -maxStep32 cfg b ∧
        _OmniDrive.softAccellerate32 cfg n c b = round32 (c - maxStep32 cfg b)) := by
  have hbig : ¬ |n - c| ≤ maxStep32 cfg b := fun c1 =>
    absurd (round32_abs_le _ _ (maxStep32_isF32 cfg b) c1) (not_le.mpr h)
  rw [softAccellerate32_eq, if_pos h]
  by_cases hd : round32 (n - c) > 0
  · left
    have hp := round32_pos_imp _ hd
    rw [abs_of_pos hp] at hbig
    exact ⟨not_le.mp hbig, by rw [if_pos hd]⟩
  · right
    have hne : round32 (n - c) < 0 := by
      rcases lt_or_eq_of_le (not_lt.mp hd) with a | a
      · exact a
      · rw [a, abs_zero] at h
        linarith
    have hp := round32_neg_imp _ hne
    rw [abs_of_neg hp] at hbig
    exact ⟨by linarith [not_le.mp hbig], by rw [if_neg hd]⟩

theorem softAccellerate32_between (cfg : Config) (n c : ℚ) (b : Bool)
    (hn : IsF32 n) (hc : IsF32 c) (hm : 0 ≤ maxStep32 cfg b) :
    min c n ≤ _OmniDrive.softAccellerate32 cfg n c b ∧
      _OmniDrive.softAccellerate32 cfg n c b ≤ max c n := by
  by_cases h : |round32 (n - c)| > maxStep32 cfg b
  · rcases softAccellerate32_large cfg n c b hm h with ⟨h1, e⟩ | ⟨h1, e⟩
    · rw [e]
      have a1 := round32_mono c (c + maxStep32 cfg b) (by linarith)
      have a2 := round32_mono (c + maxStep32 cfg b) n (by linarith)
      rw [hc] at a1
      rw [hn] at a2
      exact ⟨(min_le_left _ _).trans a1, a2.trans (le_max_right _ _)⟩
    · rw [e]
      have a1 := round32_mono (c - maxStep32 cfg b) c (by linarith)
      have a2 := round32_mono n (c - maxStep32 cfg b) (by linarith)
      rw [hc] at a1
      rw [hn] at a2
      exact ⟨(min_le_right _ _).trans a2, a1.trans (le_max_left _ _)⟩
  · rw [softAccellerate32_eq, if_neg h]
    exact ⟨min_le_right _ _, le_max_right _ _⟩

theorem softAccellerate32_bound (cfg : Config) (n c : ℚ) (b : Bool)
    (hm : 0 ≤ maxStep32 cfg b) :
    |_OmniDrive.softAccellerate32 cfg n c b - c|
      ≤ (1 + 1 / 2 ^ 23) * maxStep32 cfg b + |c| / 2 ^ 24 + 1 / 2 ^ 149 := by
  have hc0 := abs_nonneg c
  by_cases h : |round32 (n - c)| > maxStep32 cfg b
  · rcases softAccellerate32_large cfg n c b hm h with ⟨-, e⟩ | ⟨-, e⟩
    · rw [e]
      have h1 := round32_error (c + maxStep32 cfg b)
      have h2 : |c + maxStep32 cfg b| ≤ |c| + maxStep32 cfg b :=
        (abs_add c _).trans (by rw [abs_of_nonneg hm])
      have h3 : |round32 (c + maxStep32 cfg b) - c|
          ≤ |round32 (c + maxStep32 cfg b) - (c + maxStep32 cfg b)| + maxStep32 cfg b := by
        have := abs_add (round32 (c + maxStep32 cfg b) - (c + maxStep32 cfg b)) (maxStep32 cfg b)
        rw [abs_of_nonneg hm] at this
        calc |round32 (c + maxStep32 cfg b) - c|
            = |round32 (c + maxStep32 cfg b) - (c + maxStep32 cfg b) + maxStep32 cfg b| := by
              congr 1; ring
          _ ≤ _ := this
      linarith
    · rw [e]
      have h1 := round32_error (c - maxStep32 cfg b)
      have h2 : |c - maxStep32 cfg b| ≤ |c| + maxStep32 cfg b :=
        (abs_sub c _).trans (by rw [abs_of_nonneg hm])
      have h3 : |round32 (c - maxStep32 cfg b) - c|
          ≤ |round32 (c - maxStep32 cfg b) - (c - maxStep32 cfg b)| + maxStep32 cfg b := by
        have := abs_add (round32 (c - maxStep32 cfg b) - (c - maxStep32 cfg b))
          (-maxStep32 cfg b)
        rw [abs_neg, abs_of_nonneg hm] at this
        calc |round32 (c - maxStep32 cfg b) - c|
            = |round32 (c - maxStep32 cfg b) - (c - maxStep32 cfg b) + -maxStep32 cfg b| := by
              congr 1; ring
          _ ≤ _ := this
      linarith
  · rw [softAccellerate32_eq, if_neg h]
    have h1 := round32_error (n - c)
    have h2 : |n - c| ≤ |round32 (n - c)| + |round32 (n - c) - (n - c)| := by
      have := abs_sub (round32 (n - c)) (round32 (n - c) - (n - c))
      calc |n - c| = |round32 (n - c) - (round32 (n - c) - (n - c))| := by congr 1; ring
        _ ≤ _ := this
    have h3 := not_lt.mp h
    have h4 := abs_nonneg (n - c)
    linarith

theorem isF32_of_eval (x : ℚ) (b n : ℤ) (hb : -126 ≤ b) (h1 : 2 ^ b ≤ x) (h2 : x < 2 ^ (b + 1))
    (h3 : x = n * 2 ^ (b - 23)) : IsF32 x := by
  have hq : (0 : ℚ) < 2 ^ (b - 23) := zpow_pos (by norm_num) _
  have e : x / 2 ^ (b - 23) = n := by rw [div_eq_iff hq.ne']; exact h3
  unfold IsF32
  rw [round32_eval x b n hb h1 h2 (by rw [e]; linarith) (by rw [e]; linarith)]
  exact h3.symm

theorem sample_rotate_step32 : maxStep32 sampleConfig true = 13421773 / 134217728 := by
  show round32 (1 / 10) = _
  rw [round32_eval (1 / 10) (-4) 13421773 (by norm_num) (by norm_num) (by norm_num)
    (by norm_num) (by norm_num)]
  norm_num

theorem isF32_one : IsF32 1 :=
  isF32_of_eval 1 0 8388608 (by norm_num) (by norm_num) (by norm_num) (by norm_num)

theorem isF32_five : IsF32 5 :=
  isF32_of_eval 5 2 10485760 (by norm_num) (by norm_num) (by norm_num) (by norm_num)

theorem sample_soft32_five_one :
    _OmniDrive.softAccellerate32 sampleConfig 5 1 true = 9227469 / 8388608 := by
  have h4 : round32 (5 - 1) = 4 := by
    rw [show (5 : ℚ) - 1 = 4 from by norm_num]
    exact isF32_of_eval 4 2 8388608 (by norm_num) (by norm_num) (by norm_num) (by norm_num)
  have hs : round32 (1 + 13421773 / 134217728) = 9227469 / 8388608 := by
    rw [round32_eval (1 + 13421773 / 134217728) 0 9227469 (by norm_num) (by norm_num)
      (by norm_num) (by norm_num) (by norm_num)]
    norm_num
  rw [softAccellerate32_eq, h4, sample_rotate_step32, hs]
  norm_num

/-- C5, as stated, fails on the `float` code: with the rotation max step
`0.1`, held as the binary32 value `13421773 / 2^27`,
`softAccellerate(5, 1, true)` returns the rounded sum `9227469 / 2^23`
(1.10000002384), which is neither `previous + maxStep` nor within `maxStep`
of `previous`: the distance is 0.10000002384. -/
theorem softAccellerate32_exceeds_step :
    (IsF32 5 ∧ IsF32 1 ∧ 0 ≤ maxStep sampleConfig true) ∧
      maxStep32 sampleConfig true = 13421773 / 134217728 ∧
      _OmniDrive.softAccellerate32 sampleConfig 5 1 true = 9227469 / 8388608 ∧
      _OmniDrive.softAccellerate32 sampleConfig 5 1 true ≠ 1 + maxStep32 sampleConfig true ∧
      ¬ |_OmniDrive.softAccellerate32 sampleConfig 5 1 true - 1| ≤ maxStep32 sampleConfig true ∧
      ¬ |_OmniDrive.softAccellerate32 sampleConfig 5 1 true - 1| ≤ maxStep sampleConfig true := by
  refine ⟨⟨isF32_five, isF32_one, by norm_num [maxStep, sampleConfig]⟩, sample_rotate_step32,
    sample_soft32_five_one, ?_, ?_, ?_⟩
  · rw [sample_soft32_five_one, sample_rotate_step32]
    norm_num
  · rw [sample_soft32_five_one, sample_rotate_step32, abs_of_pos (by norm_num)]
    norm_num
  · rw [sample_soft32_five_one, abs_of_pos (by norm_num)]
    norm_num [maxStep, sampleConfig]

/-- C5 (amended): in binary32 arithmetic, for all finite `float` values
`desired` and `previous` and every max step `≥ 0` (translation or rotation,
`maxStep` being the macro as a `float`): `softAccellerate(desired, previous)`
returns `desired` unchanged when `|desired - previous| ≤ maxStep`, and in
general whenever the rounded difference does not exceed `maxStep`; otherwise
`desired ≠ previous` and it returns the rounded sum `previous + maxStep` if
`desired > previous` and the rounded difference `previous - maxStep` if
`desired < previous`.  In every case the result lies between `previous` and
`desired`, and it is within `maxStep` of `previous` up to rounding:
`|result - previous| ≤ (1 + 2^-23) maxStep + 2^-24 |previous| + 2^-149`. -/
theorem softAccellerate32_spec (cfg : Config) (desired previous : ℚ) (isRotation : Bool)
    (hd : IsF32 desired) (hp : IsF32 previous) (h : 0 ≤ maxStep cfg isRotation) :
    (|desired - previous| ≤ maxStep32 cfg isRotation →
        _OmniDrive.softAccellerate32 cfg desired previous isRotation = desired) ∧
      (¬ |round32 (desired - previous)| > maxStep32 cfg isRotation →
        _OmniDrive.softAccellerate32 cfg desired previous isRotation = desired) ∧
      (|round32 (desired - previous)| > maxStep32 cfg isRotation →
        (desired > previous ∨ desired < previous) ∧
        (desired > previous → _OmniDrive.softAccellerate32 cfg desired previous isRotation
          = round32 (previous + maxStep32 cfg isRotation)) ∧
        (desired < previous → _OmniDrive.softAccellerate32 cfg desired previous isRotation
          = round32 (previous - maxStep32 cfg isRotation))) ∧
      (min previous desired ≤ _OmniDrive.softAccellerate32 cfg desired previous isRotation ∧
        _OmniDrive.softAccellerate32 cfg desired previous isRotation ≤ max previous desired) ∧
      |_OmniDrive.softAccellerate32 cfg desired previous isRotation - previous|
        ≤ (1 + 1 / 2 ^ 23) * maxStep32 cfg isRotation + |previous| / 2 ^ 24 + 1 / 2 ^ 149 := by
  have hm := maxStep32_nonneg cfg isRotation h
  refine ⟨softAccellerate32_small cfg desired previous isRotation, fun h1 => ?_, fun h1 => ?_,
    softAccellerate32_between cfg desired previous isRotation hd hp hm,
    softAccellerate32_bound cfg desired previous isRotation hm⟩
  · rw [softAccellerate32_eq, if_neg h1]
  · rcases softAccellerate32_large cfg desired previous isRotation hm h1 with ⟨a, e⟩ | ⟨a, e⟩
    · exact ⟨Or.inl (by linarith), fun _ => e, fun c => absurd c (by linarith)⟩
    · exact ⟨Or.inr (by linarith), fun c => absurd c (by linarith), fun _ => e⟩

theorem softAccellerate32_spec_witness :
    _OmniDrive.softAccellerate32 sampleConfig 5 1 true
        = round32 (1 + maxStep32 sampleConfig true) ∧
      (min 1 5 ≤ _OmniDrive.softAccellerate32 sampleConfig 5 1 true ∧
        _OmniDrive.softAccellerate32 sampleConfig 5 1 true ≤ max 1 5) ∧
      |_OmniDrive.softAccellerate32 sampleConfig 5 1 true - 1|
        ≤ (1 + 1 / 2 ^ 23) * maxStep32 sampleConfig true + |(1 : ℚ)| / 2 ^ 24 + 1 / 2 ^ 149 :=
  have h := softAccellerate32_spec sampleConfig 5 1 true isF32_five isF32_one
    (by norm_num [maxStep, sampleConfig])
  have hbig : |round32 ((5 : ℚ) - 1)| > maxStep32 sampleConfig true := by
    rw [show (5 : ℚ) - 1 = 4 from by norm_num,
      show round32 4 = 4 from
        isF32_of_eval 4 2 8388608 (by norm_num) (by norm_num) (by norm_num) (by norm_num),
      sample_rotate_step32, abs_of_pos (by norm_num)]
    norm_num
  ⟨(h.2.2.1 hbig).2.1 (by norm_num), h.2.2.2.1, h.2.2.2.2⟩

/-! ## The tick in binary32 -/

theorem apply32_manual (cfg : Config) (geo : Geometry) (position : AngularCoordinate)
    (s : _OmniDrive) (ha : s.autoDrive = false) :
    s.apply32 cfg geo position = (s, none) := by
  simp [_OmniDrive.apply32, ha]

theorem apply32_auto (cfg : Config) (geo : Geometry) (position : AngularCoordinate)
    (s : _OmniDrive) (ha : s.autoDrive = true) :
    s.apply32 cfg geo position =
      (limiter32 cfg (targets cfg geo position s),
        some ((limiter32 cfg (targets cfg geo position s)).xSpeed,
          (limiter32 cfg (targets cfg geo position s)).ySpeed,
          (limiter32 cfg (targets cfg geo position s)).omega)) := by
  cases hs : s.stop <;> simp [_OmniDrive.apply32, ha, hs, targets, limiter32, snapshot]

theorem apply32_stopped (cfg : Config) (geo : Geometry) (position : AngularCoordinate)
    (s : _OmniDrive) (ha : s.autoDrive = true) (hs : s.stop = true) :
    s.apply32 cfg geo position =
      ({ s with
          xOld := s.xSpeed, yOld := s.ySpeed, omegaOld := s.omega
          xSpeed := ramp32 cfg false s.xSpeed
          ySpeed := ramp32 cfg false s.ySpeed
          omega := ramp32 cfg true s.omega },
        some (ramp32 cfg false s.xSpeed, ramp32 cfg false s.ySpeed, ramp32 cfg true s.omega)) := by
  simp [_OmniDrive.apply32, ha, hs, ramp32]

theorem sample_ramp32_one : ramp32 sampleConfig true 1 = 7549747 / 8388608 := by
  have h1 : round32 (0 - 1) = -1 := by
    rw [show (0 : ℚ) - 1 = -1 from by norm_num, round32_neg, isF32_one]
  have hs : round32 (1 - 13421773 / 134217728) = 7549747 / 8388608 := by
    rw [round32_eval (1 - 13421773 / 134217728) (-1) 15099494 (by norm_num) (by norm_num)
      (by norm_num) (by norm_num) (by norm_num)]
    norm_num
  show _OmniDrive.softAccellerate32 sampleConfig 0 1 true = _
  rw [softAccellerate32_eq, h1, sample_rotate_step32, hs]
  norm_num

/-- C19, as stated, fails on the `float` code: the robot turns at `omega = 1`
in Auto mode and is stopped; with the rotation max step `0.1`, held as the
binary32 value `13421773 / 2^27`, the tick stores and sends the rounded
difference `7549747 / 2^23` (0.89999997616), which is 0.10000002384 from the
pre-tick value, more than the max step. -/
theorem apply32_exceeds_step :
    (sampleFast.niceStop.autoDrive = true ∧ sampleFast.niceStop.omega = 1 ∧
        0 ≤ sampleConfig.OMNIDRIVE_VELOCITY_MAX_ADJUST ∧
        0 ≤ sampleConfig.OMNIDRIVE_ROTATE_MAX_ADJUST) ∧
      (sampleFast.niceStop.apply32 sampleConfig sampleGeometry origin).1.omega
        = 7549747 / 8388608 ∧
      (sampleFast.niceStop.apply32 sampleConfig sampleGeometry origin).2
        = some (0, 0, 7549747 / 8388608) ∧
      ¬ |(sampleFast.niceStop.apply32 sampleConfig sampleGeometry origin).1.omega
          - sampleFast.niceStop.omega| ≤ maxStep32 sampleConfig true ∧
      ¬ |(sampleFast.niceStop.apply32 sampleConfig sampleGeometry origin).1.omega
          - sampleFast.niceStop.omega| ≤ sampleConfig.OMNIDRIVE_ROTATE_MAX_ADJUST := by
  have hz : ramp32 sampleConfig false 0 = 0 := by
    show _OmniDrive.softAccellerate32 sampleConfig 0 0 false = 0
    exact softAccellerate32_small sampleConfig 0 0 false
      (by rw [sub_zero, abs_zero]
          exact maxStep32_nonneg sampleConfig false (by norm_num [maxStep, sampleConfig]))
  have e := apply32_stopped sampleConfig sampleGeometry origin sampleFast.niceStop rfl rfl
  have ex : sampleFast.niceStop.xSpeed = 0 := rfl
  have ey : sampleFast.niceStop.ySpeed = 0 := rfl
  have ew : sampleFast.niceStop.omega = 1 := rfl
  rw [ex, ey, ew, hz, sample_ramp32_one] at e
  rw [e]
  refine ⟨⟨rfl, rfl, by norm_num [sampleConfig], by norm_num [sampleConfig]⟩, rfl, rfl, ?_, ?_⟩
  · show ¬ |(7549747 / 8388608 : ℚ) - 1| ≤ maxStep32 sampleConfig true
    rw [sample_rotate_step32, abs_of_neg (by norm_num)]
    norm_num
  · show ¬ |(7549747 / 8388608 : ℚ) - 1| ≤ sampleConfig.OMNIDRIVE_ROTATE_MAX_ADJUST
    rw [abs_of_neg (by norm_num)]
    norm_num [sampleConfig]

/-- C19 (amended): in binary32 arithmetic, for every state in Auto mode (stop
flag set or clear) whose fields hold finite values, every pose and max steps
`≥ 0`, the travel max angle being non-zero: the triple `apply()` sends to the actuator is the one it stores as
`(xSpeed, ySpeed, omega)`; each stored value is within the max step of the
value held before the tick up to rounding,
`|new - old| ≤ (1 + 2^-23) maxStep + 2^-24 |old| + 2^-149`, with the
translation max step on x and y and the rotation max step on omega; and after
the tick `(xOld, yOld, omegaOld)` is the pre-tick `(xSpeed, ySpeed, omega)`. -/
theorem apply32_step_bounded (cfg : Config) (geo : Geometry) (position : AngularCoordinate)
    (hv : 0 ≤ cfg.OMNIDRIVE_VELOCITY_MAX_ADJUST) (hr : 0 ≤ cfg.OMNIDRIVE_ROTATE_MAX_ADJUST)
    (_hA : cfg.OMNIDRIVE_TRAVEL_MAX_ANGLE ≠ 0)
    (s : _OmniDrive) (ha : s.autoDrive = true) :
    (s.apply32 cfg geo position).2 =
        some ((s.apply32 cfg geo position).1.xSpeed, (s.apply32 cfg geo position).1.ySpeed,
          (s.apply32 cfg geo position).1.omega) ∧
      (|(s.apply32 cfg geo position).1.xSpeed - s.xSpeed|
          ≤ (1 + 1 / 2 ^ 23) * maxStep32 cfg false + |s.xSpeed| / 2 ^ 24 + 1 / 2 ^ 149 ∧
        |(s.apply32 cfg geo position).1.ySpeed - s.ySpeed|
          ≤ (1 + 1 / 2 ^ 23) * maxStep32 cfg false + |s.ySpeed| / 2 ^ 24 + 1 / 2 ^ 149 ∧
        |(s.apply32 cfg geo position).1.omega - s.omega|
          ≤ (1 + 1 / 2 ^ 23) * maxStep32 cfg true + |s.omega| / 2 ^ 24 + 1 / 2 ^ 149) ∧
      ((s.apply32 cfg geo position).1.xOld = s.xSpeed ∧
        (s.apply32 cfg geo position).1.yOld = s.ySpeed ∧
        (s.apply32 cfg geo position).1.omegaOld = s.omega) := by
  rw [apply32_auto cfg geo position s ha]
  obtain ⟨f1, f2, f3, -⟩ := targets_frame cfg geo position s
  obtain ⟨g1, g2, g3, -⟩ := snapshot_frame s
  have e1 : (targets cfg geo position s).xOld = s.xSpeed := f1.trans g1
  have e2 : (targets cfg geo position s).yOld = s.ySpeed := f2.trans g2
  have e3 : (targets cfg geo position s).omegaOld = s.omega := f3.trans g3
  have mt : 0 ≤ maxStep32 cfg false := maxStep32_nonneg cfg false hv
  have mr : 0 ≤ maxStep32 cfg true := maxStep32_nonneg cfg true hr
  refine ⟨rfl, ⟨?_, ?_, ?_⟩, ⟨e1, e2, e3⟩⟩
  · have h := softAccellerate32_bound cfg (targets cfg geo position s).xSpeed
      (targets cfg geo position s).xOld false mt
    rw [← e1]
    exact h
  · have h := softAccellerate32_bound cfg (targets cfg geo position s).ySpeed
      (targets cfg geo position s).yOld false mt
    rw [← e2]
    exact h
  · have h := softAccellerate32_bound cfg (targets cfg geo position s).omega
      (targets cfg geo position s).omegaOld true mr
    rw [← e3]
    exact h

theorem apply32_step_bounded_witness :
    (sampleAhead.apply32 sampleConfig sampleGeometry origin).2 =
        some ((sampleAhead.apply32 sampleConfig sampleGeometry origin).1.xSpeed,
          (sampleAhead.apply32 sampleConfig sampleGeometry origin).1.ySpeed,
          (sampleAhead.apply32 sampleConfig sampleGeometry origin).1.omega) ∧
      |(sampleAhead.apply32 sampleConfig sampleGeometry origin).1.xSpeed - sampleAhead.xSpeed|
        ≤ (1 + 1 / 2 ^ 23) * maxStep32 sampleConfig false + |sampleAhead.xSpeed| / 2 ^ 24
          + 1 / 2 ^ 149 ∧
      (sampleAhead.apply32 sampleConfig sampleGeometry origin).1.xOld = sampleAhead.xSpeed :=
  have h := apply32_step_bounded sampleConfig sampleGeometry origin (by norm_num [sampleConfig])
    (by norm_num [sampleConfig]) (by norm_num [sampleConfig]) sampleAhead rfl
  ⟨h.1, h.2.1.1, h.2.2.1⟩

/-! ## Stopping in binary32 -/

theorem ramp32_small (cfg : Config) (b : Bool) (x : ℚ) (h : |x| ≤ maxStep32 cfg b) :
    ramp32 cfg b x = 0 :=
  softAccellerate32_small cfg 0 x b (by rw [zero_sub, abs_neg]; exact h)

theorem ramp32_iterate_zero (cfg : Config) (b : Bool) (hm : 0 ≤ maxStep32 cfg b) (k : ℕ) :
    (ramp32 cfg b)^[k] 0 = 0 := by
  induction k with
  | zero => rfl
  | succ k ih =>
    rw [Function.iterate_succ_apply, ramp32_small cfg b 0 (by rw [abs_zero]; exact hm)]
    exact ih

theorem ramp32_large (cfg : Config) (b : Bool) (x : ℚ) (hx : IsF32 x)
    (hm : 0 ≤ maxStep32 cfg b) (h : maxStep32 cfg b < |x|) :
    IsF32 (ramp32 cfg b x) ∧ |ramp32 cfg b x| ≤ |x| ∧
      |ramp32 cfg b x| ≤ |x| - maxStep32 cfg b + |x| / 2 ^ 24 + 1 / 2 ^ 150 := by
  have hd : round32 (0 - x) = -x := by rw [zero_sub, round32_neg, hx]
  have hbig : |round32 (0 - x)| > maxStep32 cfg b := by rw [hd, abs_neg]; exact h
  have hx0 := abs_nonneg x
  rcases softAccellerate32_large cfg 0 x b hm hbig with ⟨a, e⟩ | ⟨a, e⟩
  · -- x is negative: the sum x + maxStep is rounded
    have hneg : x + maxStep32 cfg b < 0 := by linarith
    have hxn : x < 0 := by linarith
    have e' : ramp32 cfg b x = round32 (x + maxStep32 cfg b) := e
    have h1 := round32_mono x (x + maxStep32 cfg b) (by linarith)
    have h2 := round32_mono (x + maxStep32 cfg b) 0 hneg.le
    rw [hx] at h1
    rw [round32_zero] at h2
    have herr := round32_error (x + maxStep32 cfg b)
    rw [abs_of_neg hneg, abs_le] at herr
    rw [e']
    refine ⟨round32_idem _, ?_, ?_⟩
    · rw [abs_of_nonpos h2, abs_of_neg hxn]; linarith
    · rw [abs_of_nonpos h2, abs_of_neg hxn]
      have : (0 : ℚ) ≤ maxStep32 cfg b / 2 ^ 24 := div_nonneg hm (by norm_num)
      have e2 : -(x + maxStep32 cfg b) / 2 ^ 24 = -x / 2 ^ 24 - maxStep32 cfg b / 2 ^ 24 := by
        ring
      linarith [herr.1, herr.2]
  · have hpos : 0 < x - maxStep32 cfg b := by linarith
    have hxp : 0 < x := by linarith
    have e' : ramp32 cfg b x = round32 (x - maxStep32 cfg b) := e
    have h1 := round32_mono (x - maxStep32 cfg b) x (by linarith)
    have h2 := round32_nonneg (x - maxStep32 cfg b) hpos.le
    rw [hx] at h1
    have herr := round32_error (x - maxStep32 cfg b)
    rw [abs_of_pos hpos, abs_le] at herr
    rw [e']
    refine ⟨round32_idem _, ?_, ?_⟩
    · rw [abs_of_nonneg h2, abs_of_pos hxp]; exact h1
    · rw [abs_of_nonneg h2, abs_of_pos hxp]
      have : (0 : ℚ) ≤ maxStep32 cfg b / 2 ^ 24 := div_nonneg hm (by norm_num)
      have e2 : (x - maxStep32 cfg b) / 2 ^ 24 = x / 2 ^ 24 - maxStep32 cfg b / 2 ^ 24 := by
        ring
      linarith [herr.1, herr.2]

theorem ramp32_reaches_zero (cfg : Config) (b : Bool) (hm : 0 ≤ maxStep32 cfg b) (d : ℚ)
    (k : ℕ) (x : ℚ) (hx : IsF32 x)
    (hd : d ≤ maxStep32 cfg b - |x| / 2 ^ 24 - 1 / 2 ^ 150)
    (hk : |x| - maxStep32 cfg b ≤ k * d) : (ramp32 cfg b)^[k + 1] x = 0 := by
  induction k generalizing x with
  | zero =>
    rw [Function.iterate_succ_apply, ramp32_small cfg b x (by simpa using hk)]
    rfl
  | succ k ih =>
    rw [Function.iterate_succ_apply]
    rcases le_or_lt |x| (maxStep32 cfg b) with hs | hl
    · rw [ramp32_small cfg b x hs]
      exact ramp32_iterate_zero cfg b hm (k + 1)
    · obtain ⟨f, h1, h2⟩ := ramp32_large cfg b x hx hm hl
      apply ih (ramp32 cfg b x) f
      · have : |ramp32 cfg b x| / 2 ^ 24 ≤ |x| / 2 ^ 24 :=
          div_le_div_of_nonneg_right h1 (by norm_num)
        linarith
      · push_cast at hk
        linarith

theorem applyTimes32_stopped (cfg : Config) (geo : Geometry) (k : ℕ)
    (position : ℕ → AngularCoordinate) (s : _OmniDrive)
    (ha : s.autoDrive = true) (hs : s.stop = true) :
    (applyTimes32 cfg geo position k s).xSpeed = (ramp32 cfg false)^[k] s.xSpeed ∧
      (applyTimes32 cfg geo position k s).ySpeed = (ramp32 cfg false)^[k] s.ySpeed ∧
      (applyTimes32 cfg geo position k s).omega = (ramp32 cfg true)^[k] s.omega := by
  induction k generalizing s position with
  | zero => exact ⟨rfl, rfl, rfl⟩
  | succ k ih =>
    simp only [applyTimes32, Function.iterate_succ_apply]
    rw [apply32_stopped cfg geo (position 0) s ha hs]
    exact ih _ _ ha hs

theorem applyTimes32_manual (cfg : Config) (geo : Geometry) (k : ℕ)
    (position : ℕ → AngularCoordinate) (s : _OmniDrive) (ha : s.autoDrive = false) :
    applyTimes32 cfg geo position k s = s := by
  induction k generalizing position with
  | zero => rfl
  | succ k ih =>
    simp only [applyTimes32]
    rw [apply32_manual cfg geo (position 0) s ha]
    exact ih _

theorem isF32_neg (x : ℚ) (h : IsF32 x) : IsF32 (-x) := by
  unfold IsF32 at h ⊢
  rw [round32_neg, h]

theorem ramp32_step_eval (cfg : Config) (b : Bool) (x y : ℚ) (hx : IsF32 x)
    (h : maxStep32 cfg b < x) (hm : 0 ≤ maxStep32 cfg b)
    (e : round32 (x - maxStep32 cfg b) = y) : ramp32 cfg b x = y ∧ IsF32 y := by
  have hd : round32 (0 - x) = -x := by rw [zero_sub, round32_neg, hx]
  have hx0 : 0 < x := by linarith
  refine ⟨?_, by rw [← e]; exact round32_idem _⟩
  show _OmniDrive.softAccellerate32 cfg 0 x b = y
  rw [softAccellerate32_eq, hd, abs_neg, abs_of_pos hx0, if_pos h, if_neg (by linarith), e]

theorem sample_translate_step32 : maxStep32 sampleConfig false = 5368709 / 268435456 := by
  show round32 (1 / 50) = _
  rw [round32_eval (1 / 50) (-6) 10737418 (by norm_num) (by norm_num) (by norm_num)
    (by norm_num) (by norm_num)]
  norm_num

theorem isF32_half : IsF32 (1 / 2) :=
  isF32_of_eval (1 / 2) (-1) 8388608 (by norm_num) (by norm_num) (by norm_num) (by norm_num)

theorem isF32_eighth : IsF32 (1 / 8) :=
  isF32_of_eval (1 / 8) (-3) 8388608 (by norm_num) (by norm_num) (by norm_num) (by norm_num)

theorem isF32_quarter : IsF32 (1 / 4) :=
  isF32_of_eval (1 / 4) (-2) 8388608 (by norm_num) (by norm_num) (by norm_num) (by norm_num)

theorem roundHalfEven_tie_odd (f : ℤ) (h : f % 2 = 1) :
    roundHalfEven ((f : ℚ) + 1 / 2) = f + 1 := by
  have hf : ⌊(f : ℚ) + 1 / 2⌋ = f := by
    rw [Int.floor_eq_iff]
    constructor <;> linarith
  unfold roundHalfEven
  rw [hf]
  have e : (f : ℚ) + 1 / 2 - f = 1 / 2 := by ring
  rw [e, if_neg (lt_irrefl _), if_neg (lt_irrefl _), if_neg (by omega)]

theorem round32_eval_tie (x : ℚ) (b f : ℤ) (hb : -126 ≤ b) (h1 : 2 ^ b ≤ x)
    (h2 : x < 2 ^ (b + 1)) (h3 : x / 2 ^ (b - 23) = f + 1 / 2) (hf : f % 2 = 1) :
    round32 x = (f + 1 : ℤ) * 2 ^ (b - 23) := by
  have hx : 0 < x := lt_of_lt_of_le (zpow_pos (by norm_num) b) h1
  rw [round32_of_nonneg x hx.le]
  unfold roundMag
  rw [quantum_eq x b (binade_eq x b hb h1 h2), h3, roundHalfEven_tie_odd f hf]

theorem sample_rotate_step32_nonneg : (0 : ℚ) ≤ maxStep32 sampleConfig true := by
  rw [sample_rotate_step32]; norm_num

theorem sample_ramp32_1 :
    ramp32 sampleConfig true (1 / 2) = 13421773 / 33554432 ∧ IsF32 (13421773 / 33554432) :=
  ramp32_step_eval sampleConfig true (1 / 2) (13421773 / 33554432) isF32_half
    (by rw [sample_rotate_step32]; norm_num) sample_rotate_step32_nonneg
    (by rw [sample_rotate_step32, round32_eval (1 / 2 - 13421773 / 134217728) (-2) 13421773
          (by norm_num) (by norm_num) (by norm_num) (by norm_num) (by norm_num)]
        norm_num)

theorem sample_ramp32_2 :
    ramp32 sampleConfig true (13421773 / 33554432) = 5033165 / 16777216 ∧
      IsF32 (5033165 / 16777216) :=
  ramp32_step_eval sampleConfig true (13421773 / 33554432)
    (5033165 / 16777216) sample_ramp32_1.2 (by rw [sample_rotate_step32]; norm_num)
    sample_rotate_step32_nonneg
    (by rw [sample_rotate_step32,
          round32_eval (13421773 / 33554432 - 13421773 / 134217728) (-2) 10066330
          (by norm_num) (by norm_num) (by norm_num) (by norm_num) (by norm_num)]
        norm_num)

theorem sample_ramp32_3 :
    ramp32 sampleConfig true (5033165 / 16777216) = 6710887 / 33554432 ∧
      IsF32 (6710887 / 33554432) :=
  ramp32_step_eval sampleConfig true (5033165 / 16777216)
    (6710887 / 33554432) sample_ramp32_2.2 (by rw [sample_rotate_step32]; norm_num)
    sample_rotate_step32_nonneg
    (by rw [sample_rotate_step32,
          round32_eval_tie (5033165 / 16777216 - 13421773 / 134217728) (-3) 13421773
          (by norm_num) (by norm_num) (by norm_num) (by norm_num) (by norm_num)]
        norm_num)

theorem sample_ramp32_4 :
    ramp32 sampleConfig true (6710887 / 33554432) = 13421775 / 134217728 ∧
      IsF32 (13421775 / 134217728) :=
  ramp32_step_eval sampleConfig true (6710887 / 33554432)
    (13421775 / 134217728) sample_ramp32_3.2 (by rw [sample_rotate_step32]; norm_num)
    sample_rotate_step32_nonneg
    (by rw [sample_rotate_step32,
          round32_eval (6710887 / 33554432 - 13421773 / 134217728) (-4) 13421775
          (by norm_num) (by norm_num) (by norm_num) (by norm_num) (by norm_num)]
        norm_num)

theorem sample_ramp32_5 :
    ramp32 sampleConfig true (13421775 / 134217728) = 1 / 67108864 ∧ IsF32 (1 / 67108864) :=
  ramp32_step_eval sampleConfig true (13421775 / 134217728)
    (1 / 67108864) sample_ramp32_4.2 (by rw [sample_rotate_step32]; norm_num)
    sample_rotate_step32_nonneg
    (by rw [sample_rotate_step32,
          round32_eval (13421775 / 134217728 - 13421773 / 134217728) (-26) 8388608
          (by norm_num) (by norm_num) (by norm_num) (by norm_num) (by norm_num)]
        norm_num)

theorem sample_ramp32_6 : ramp32 sampleConfig true (1 / 67108864) = 0 :=
  ramp32_small sampleConfig true _
    (by rw [sample_rotate_step32, abs_of_pos (by norm_num)]; norm_num)

theorem sample_ramp32_half :
    (ramp32 sampleConfig true)^[5] (1 / 2) = 1 / 67108864 ∧
      (ramp32 sampleConfig true)^[6] (1 / 2) = 0 := by
  have h5 : (ramp32 sampleConfig true)^[5] (1 / 2) = 1 / 67108864 := by
    rw [Function.iterate_succ_apply, sample_ramp32_1.1, Function.iterate_succ_apply,
      sample_ramp32_2.1, Function.iterate_succ_apply, sample_ramp32_3.1,
      Function.iterate_succ_apply, sample_ramp32_4.1, Function.iterate_succ_apply,
      sample_ramp32_5.1]
    rfl
  refine ⟨h5, ?_⟩
  rw [Function.iterate_succ_apply', h5, sample_ramp32_6]

/-- C3, as stated, fails on the code, in two ways.  In Manual mode `apply()`
returns at once, so after `niceStop()` the velocity fields `(1/8, -1/4, 1/2)`
are still the same after 10 ticks, although `⌈(1/8) / (1/50)⌉ = 7`.  In Auto
mode, in `float` arithmetic with the rotation max step `0.1`, `omega = 1/2` is
`2^-26` after `⌈(1/2) / (1/10)⌉ = 5` ticks and 0 only after the sixth. -/
theorem niceStop32_not_converged :
    (sampleSpinningManual.autoDrive = false ∧
        0 < sampleConfig.OMNIDRIVE_VELOCITY_MAX_ADJUST ∧
        0 < sampleConfig.OMNIDRIVE_ROTATE_MAX_ADJUST ∧
        ⌈|sampleSpinningManual.xSpeed| / sampleConfig.OMNIDRIVE_VELOCITY_MAX_ADJUST⌉₊ ≤ 10 ∧
        ⌈|sampleSpinningManual.xSpeed| / maxStep32 sampleConfig false⌉₊ ≤ 10 ∧
        (applyTimes32 sampleConfig sampleGeometry (fun _ => origin) 10
          sampleSpinningManual.niceStop).xSpeed = 1 / 8) ∧
      (sampleSpinning.autoDrive = true ∧ IsF32 sampleSpinning.omega ∧
        ⌈|sampleSpinning.omega| / sampleConfig.OMNIDRIVE_ROTATE_MAX_ADJUST⌉₊ ≤ 5 ∧
        ⌈|sampleSpinning.omega| / maxStep32 sampleConfig true⌉₊ ≤ 5 ∧
        (applyTimes32 sampleConfig sampleGeometry (fun _ => origin) 5
          sampleSpinning.niceStop).omega = 1 / 67108864 ∧
        (applyTimes32 sampleConfig sampleGeometry (fun _ => origin) 6
          sampleSpinning.niceStop).omega = 0) := by
  have hx : sampleSpinningManual.xSpeed = 1 / 8 := rfl
  have hw : sampleSpinning.omega = 1 / 2 := rfl
  refine ⟨⟨rfl, by norm_num [sampleConfig], by norm_num [sampleConfig], ?_, ?_, ?_⟩,
    ⟨rfl, by rw [hw]; exact isF32_half, ?_, ?_, ?_, ?_⟩⟩
  · rw [Nat.ceil_le, hx, abs_of_pos (by norm_num)]
    norm_num [sampleConfig]
  · rw [Nat.ceil_le, hx, abs_of_pos (by norm_num), sample_translate_step32]
    norm_num
  · rw [applyTimes32_manual _ _ _ _ _ rfl]
    rfl
  · rw [Nat.ceil_le, hw, abs_of_pos (by norm_num)]
    norm_num [sampleConfig]
  · rw [Nat.ceil_le, hw, abs_of_pos (by norm_num), sample_rotate_step32]
    norm_num
  · rw [(applyTimes32_stopped sampleConfig sampleGeometry 5 (fun _ => origin)
      sampleSpinning.niceStop rfl rfl).2.2]
    exact sample_ramp32_half.1
  · rw [(applyTimes32_stopped sampleConfig sampleGeometry 6 (fun _ => origin)
      sampleSpinning.niceStop rfl rfl).2.2]
    exact sample_ramp32_half.2

/-- C3 (amended): in binary32 arithmetic, for every controller state in Auto
mode whose velocity triple `(x, y, omega)` holds finite `float` values, with
positive max steps: after `niceStop()`, if `apply()` is called `k ≥ 1` times
in succession, then `xSpeed` is exactly 0 once
`(k - 1) * (T - 2^-24 |x| - 2^-150) ≥ |x| - T`, where `T` is the translation
max step as a `float`; `ySpeed` likewise; and `omega` likewise with the
rotation max step.  (Without the two rounding terms the condition is
`k ≥ |x| / T`.) -/
theorem niceStop32_converges (cfg : Config) (geo : Geometry)
    (hv : 0 < cfg.OMNIDRIVE_VELOCITY_MAX_ADJUST) (hr : 0 < cfg.OMNIDRIVE_ROTATE_MAX_ADJUST)
    (s : _OmniDrive) (ha : s.autoDrive = true)
    (hx : IsF32 s.xSpeed) (hy : IsF32 s.ySpeed) (hw : IsF32 s.omega)
    (position : ℕ → AngularCoordinate) (k : ℕ) (hk : 1 ≤ k) :
    (|s.xSpeed| - maxStep32 cfg false ≤ ((k : ℚ) - 1) * slack32 cfg false s.xSpeed →
        (applyTimes32 cfg geo position k s.niceStop).xSpeed = 0) ∧
      (|s.ySpeed| - maxStep32 cfg false ≤ ((k : ℚ) - 1) * slack32 cfg false s.ySpeed →
        (applyTimes32 cfg geo position k s.niceStop).ySpeed = 0) ∧
      (|s.omega| - maxStep32 cfg true ≤ ((k : ℚ) - 1) * slack32 cfg true s.omega →
        (applyTimes32 cfg geo position k s.niceStop).omega = 0) := by
  obtain ⟨j, rfl⟩ : ∃ j, k = j + 1 := ⟨k - 1, by omega⟩
  obtain ⟨ex, ey, ew⟩ := applyTimes32_stopped cfg geo (j + 1) position s.niceStop ha rfl
  have mt : 0 ≤ maxStep32 cfg false := maxStep32_nonneg cfg false hv.le
  have mr : 0 ≤ maxStep32 cfg true := maxStep32_nonneg cfg true hr.le
  have hc : ((j + 1 : ℕ) : ℚ) - 1 = j := by push_cast; ring
  rw [hc]
  refine ⟨fun h => ?_, fun h => ?_, fun h => ?_⟩
  · rw [ex]
    exact ramp32_reaches_zero cfg false mt _ j _ hx (le_refl _) h
  · rw [ey]
    exact ramp32_reaches_zero cfg false mt _ j _ hy (le_refl _) h
  · rw [ew]
    exact ramp32_reaches_zero cfg true mr _ j _ hw (le_refl _) h

theorem niceStop32_converges_witness :
    (applyTimes32 sampleConfig sampleGeometry (fun _ => origin) 6
        sampleSpinning.niceStop).omega = 0 ∧
      (applyTimes32 sampleConfig sampleGeometry (fun _ => origin) 13
        sampleSpinning.niceStop).xSpeed = 0 ∧
      (applyTimes32 sampleConfig sampleGeometry (fun _ => origin) 13
        sampleSpinning.niceStop).ySpeed = 0 :=
  have hy : IsF32 sampleSpinning.ySpeed := by
    rw [show sampleSpinning.ySpeed = -(1 / 4) from by norm_num [sampleSpinning]]
    exact isF32_neg _ isF32_quarter
  have h6 := niceStop32_converges sampleConfig sampleGeometry (by norm_num [sampleConfig])
    (by norm_num [sampleConfig]) sampleSpinning rfl isF32_eighth hy isF32_half
    (fun _ => origin) 6 (by norm_num)
  have h13 := niceStop32_converges sampleConfig sampleGeometry (by norm_num [sampleConfig])
    (by norm_num [sampleConfig]) sampleSpinning rfl isF32_eighth hy isF32_half
    (fun _ => origin) 13 (by norm_num)
  ⟨h6.2.2 (by
      rw [show sampleSpinning.omega = 1 / 2 from rfl]
      unfold slack32
      rw [sample_rotate_step32, abs_of_pos (by norm_num)]
      norm_num),
    h13.1 (by
      rw [show sampleSpinning.xSpeed = 1 / 8 from rfl]
      unfold slack32
      rw [sample_translate_step32, abs_of_pos (by norm_num)]
      norm_num),
    h13.2.1 (by
      rw [show sampleSpinning.ySpeed = -(1 / 4) from by norm_num [sampleSpinning]]
      unfold slack32
      rw [sample_translate_step32, abs_neg, abs_of_pos (by norm_num)]
      norm_num)⟩

/-! ## The travel scenario and the turn step, at concrete inputs -/

theorem sampleTurning_vector :
    destinationVector bearingGeometry origin sampleTurning
      = { magnitude := 2 / 5, phi := 1 / 10 } := by
  have h1 : |(3 / 10 : ℚ)| = 3 / 10 := abs_of_pos (by norm_num)
  have h2 : |(1 / 10 : ℚ)| = 1 / 10 := abs_of_pos (by norm_num)
  simp only [destinationVector, bearingGeometry, sampleTurning, _OmniDrive.destination,
    _OmniDrive.setPointAt, _OmniDrive.setDestination, _OmniDrive.init, origin, sub_zero, h1, h2,
    Bool.not_true, Bool.false_eq_true, if_false]
  norm_num

theorem sampleTurning_translation :
    translation sampleConfig bearingGeometry origin (snapshot sampleTurning) =
      { snapshot sampleTurning with xSpeed := 52 / 125, omega := 3 / 20 } := by
  have hd : destinationVector bearingGeometry origin (snapshot sampleTurning)
      = { magnitude := 2 / 5, phi := 1 / 10 } := sampleTurning_vector
  have h1 : |(1 / 10 : ℚ)| = 1 / 10 := abs_of_pos (by norm_num)
  have h2 : |(3 / 20 : ℚ)| = 3 / 20 := abs_of_pos (by norm_num)
  have hx : _OmniDrive.findTravelVelocity sampleConfig (2 / 5) (1 / 10) = 52 / 125 := by
    norm_num [_OmniDrive.findTravelVelocity, sampleConfig, h1]
  have hw : _OmniDrive.findAngularVelocity sampleConfig (1 / 10) = 3 / 20 := by
    norm_num [_OmniDrive.findAngularVelocity, sampleConfig, h2]
  unfold translation
  rw [hd, if_neg (by
    rintro (c | c)
    · exact absurd c (by decide)
    · norm_num [sampleConfig] at c)]
  unfold _OmniDrive.travelTowards
  rw [if_neg (by
    show ¬ (2 / 5 : ℚ) < 0
    norm_num)]
  show ({ snapshot sampleTurning with
    xSpeed := _OmniDrive.findTravelVelocity sampleConfig (2 / 5) (1 / 10 - 0)
    omega := _OmniDrive.findAngularVelocity sampleConfig (1 / 10 - 0) } : _OmniDrive) = _
  rw [sub_zero, hx, hw]

theorem turn_takes_precedence_witness :
    translation sampleConfig bearingGeometry origin (snapshot sampleTurning) =
        _OmniDrive.travelTowards sampleConfig bearingGeometry origin
          (destinationVector bearingGeometry origin sampleTurning) (snapshot sampleTurning) ∧
      (translation sampleConfig bearingGeometry origin (snapshot sampleTurning)).omega = 3 / 20 ∧
      (translation sampleConfig bearingGeometry origin (snapshot sampleTurning)).xSpeed
        = 52 / 125 ∧
      turnError bearingGeometry origin sampleTurning.pointAt = 1 ∧
      (targets sampleConfig bearingGeometry origin sampleTurning).omega
        = _OmniDrive.findAngularVelocity sampleConfig 1 ∧
      (targets sampleConfig bearingGeometry origin sampleTurning).omega = 1 ∧
      (targets sampleConfig bearingGeometry origin sampleTurning).xSpeed = 52 / 125 ∧
      (sampleTurning.apply sampleConfig bearingGeometry origin).1.omega
        = _OmniDrive.softAccellerate sampleConfig 1 sampleTurning.omega true :=
  have he : turnError bearingGeometry origin sampleTurning.pointAt = 1 := by
    norm_num [turnError, bearingGeometry, sampleTurning, _OmniDrive.pointAt,
      _OmniDrive.setPointAt, _OmniDrive.setDestination, _OmniDrive.init, origin]
  have hf : _OmniDrive.findAngularVelocity sampleConfig 1 = 1 := by
    have h2 : |(3 / 2 : ℚ)| = 3 / 2 := abs_of_pos (by norm_num)
    norm_num [_OmniDrive.findAngularVelocity, sampleConfig, h2]
  have h := turn_takes_precedence sampleConfig bearingGeometry origin sampleTurning rfl rfl rfl
    (by rw [sampleTurning_vector]
        norm_num [sampleConfig, sampleTurning, _OmniDrive.stopWithin, _OmniDrive.setPointAt,
          _OmniDrive.setDestination, _OmniDrive.init])
    (by have h1 : |(1 : ℚ)| = 1 := abs_one
        norm_num [bearingGeometry, sampleTurning, _OmniDrive.pointAt, _OmniDrive.stopWithin,
          _OmniDrive.setPointAt, _OmniDrive.setDestination, _OmniDrive.init, origin,
          sampleConfig])
    (by rw [he, abs_one]; norm_num [sampleConfig])
  have ht : translation sampleConfig bearingGeometry origin (snapshot sampleTurning) =
      _OmniDrive.travelTowards sampleConfig bearingGeometry origin
        (destinationVector bearingGeometry origin sampleTurning) (snapshot sampleTurning) := by
    unfold translation
    rw [show destinationVector bearingGeometry origin (snapshot sampleTurning)
      = destinationVector bearingGeometry origin sampleTurning from rfl, sampleTurning_vector,
      if_neg (by
        rintro (c | c)
        · exact absurd c (by decide)
        · norm_num [sampleConfig] at c)]
  ⟨ht, by rw [sampleTurning_translation], by rw [sampleTurning_translation], he,
    by rw [h.1, he], by rw [h.1, he, hf], by rw [h.2.1, sampleTurning_translation],
    by rw [h.2.2.2.1, he, hf]⟩
